import Mathlib

/-!
Verification development for the multixact manager of this repository
(src/src/backend/access/transam/multixact.c).

The file gives a shallow embedding of the multixact core: the shared
allocator state, the offsets SLRU and the members SLRU (modelled as total
maps from entry index to stored value, with the flag words of the members
area kept at the bit level, exactly as the source packs them), the
backend-local cache, and the operations MultiXactIdCreateFromMembers,
GetNewMultiXactId, RecordNewMultiXact, GetMultiXactIdMembers,
MultiXactIdExpand and TruncateMultiXact.  The embedding is serial: a lock
acquire/release pair in the source becomes ordinary sequencing, and the
retry loop of GetMultiXactIdMembers (which can only make progress when a
concurrent writer fills the zero offset entry it saw) is surfaced as an
explicit retry outcome.

Widths.  In this fork TransactionId, MultiXactId and MultiXactOffset are
64-bit quantities: the source keeps page numbers in int64, prints offsets
with INT64_FORMAT and multixact ids with XID_FMT, splits segment numbers
into two 32-bit halves for display, manipulates the member flag words as
uint64 with eight flag bytes per member group, and describes the member
group as a 9-word (72-byte) unit holding 8 xids, which forces
sizeof(TransactionId) = 8.  Arithmetic that the C code performs on these
unsigned 64-bit counters is embedded as Nat arithmetic taken modulo 2^64.
-/

/-- Modulus of the 64-bit counters (TransactionId, MultiXactId,
MultiXactOffset) used by this fork. -/
def xidMod : Nat := 2 ^ 64

/-- All-ones 64-bit word, used to express the C complement of a mask
inside a uint64. -/
def mask64 : Nat := 2 ^ 64 - 1

/-- Block size of the paged logs; the source file states it works with the
8kB BLCKSZ. -/
def BLCKSZ : Nat := 8192

/-- Size in bytes of one offsets-log entry (MultiXactOffset is 64-bit in
this fork). -/
def sizeofMultiXactOffset : Nat := 8

/-- Size in bytes of one TransactionId; fixed to 8 by the 9-word (72-byte)
member group documented and laid out in the source. -/
def sizeofTransactionId : Nat := 8

/-- Number of offsets-log entries per page (BLCKSZ / sizeof(MultiXactOffset)). -/
def MULTIXACT_OFFSETS_PER_PAGE : Nat := BLCKSZ / sizeofMultiXactOffset

/-- Bits of flag space per member transaction. -/
def MXACT_MEMBER_BITS_PER_XACT : Nat := 8

/-- Mask extracting the flag bits of one member. -/
def MXACT_MEMBER_XACT_BITMASK : Nat := (1 <<< MXACT_MEMBER_BITS_PER_XACT) - 1

/-- Full bytes of flags in a member group. -/
def MULTIXACT_FLAGBYTES_PER_GROUP : Nat := 8

/-- Members per member group (one flag byte per member). -/
def MULTIXACT_MEMBERS_PER_MEMBERGROUP : Nat := MULTIXACT_FLAGBYTES_PER_GROUP * 1

/-- Size in bytes of a complete member group. -/
def MULTIXACT_MEMBERGROUP_SIZE : Nat :=
  sizeofTransactionId * MULTIXACT_MEMBERS_PER_MEMBERGROUP + MULTIXACT_FLAGBYTES_PER_GROUP

/-- Member groups per page. -/
def MULTIXACT_MEMBERGROUPS_PER_PAGE : Nat := BLCKSZ / MULTIXACT_MEMBERGROUP_SIZE

/-- Member entries per page. -/
def MULTIXACT_MEMBERS_PER_PAGE : Nat :=
  MULTIXACT_MEMBERGROUPS_PER_PAGE * MULTIXACT_MEMBERS_PER_MEMBERGROUP

/-- Pages per SLRU segment (slru.h constant of the generic paged-log
primitive this module is built on). -/
def SLRU_PAGES_PER_SEGMENT : Nat := 32

/-- Invalid multixact id. -/
def InvalidMultiXactId : Nat := 0

/-- First valid multixact id. -/
def FirstMultiXactId : Nat := 1

/-- Largest multixact id value. -/
def MaxMultiXactId : Nat := xidMod - 1

/-- Largest member offset value. -/
def MaxMultiXactOffset : Nat := xidMod - 1

/-- Offsets-log page holding the entry of a multixact id. -/
def MultiXactIdToOffsetPage (multi : Nat) : Nat := multi / MULTIXACT_OFFSETS_PER_PAGE

/-- Entry number of a multixact id within its offsets-log page. -/
def MultiXactIdToOffsetEntry (multi : Nat) : Nat := multi % MULTIXACT_OFFSETS_PER_PAGE

/-- Members-log page holding a member offset. -/
def MXOffsetToMemberPage (offset : Nat) : Nat := offset / MULTIXACT_MEMBERS_PER_PAGE

/-- Byte offset within its page of the flag word of a member offset. -/
def MXOffsetToFlagsOffset (offset : Nat) : Nat :=
  ((offset / MULTIXACT_MEMBERS_PER_MEMBERGROUP) % MULTIXACT_MEMBERGROUPS_PER_PAGE) *
    MULTIXACT_MEMBERGROUP_SIZE

/-- Bit shift of the flag bits of a member offset within its flag word. -/
def MXOffsetToFlagsBitShift (offset : Nat) : Nat :=
  (offset % MULTIXACT_MEMBERS_PER_MEMBERGROUP) * MXACT_MEMBER_BITS_PER_XACT

/-- Byte offset within its page of the TransactionId of a member offset. -/
def MXOffsetToMemberOffset (offset : Nat) : Nat :=
  MXOffsetToFlagsOffset offset + MULTIXACT_FLAGBYTES_PER_GROUP +
    (offset % MULTIXACT_MEMBERS_PER_MEMBERGROUP) * sizeofTransactionId

/-- Globally numbered member group of a member offset.  The source
addresses a flag word by (page, in-page byte offset); this global group
number is in bijection with that pair:
group = page * MULTIXACT_MEMBERGROUPS_PER_PAGE + flagsOffset / MULTIXACT_MEMBERGROUP_SIZE. -/
def MXOffsetToFlagGroup (offset : Nat) : Nat := offset / MULTIXACT_MEMBERS_PER_MEMBERGROUP

/-- Modelled from the spec: MultiXactIdPrecedes lives in a part of the
repository that is not under src (multixact.c only uses it); the spec
requires modular precedes semantics on the counters, here at the 64-bit
width of this fork, matching the usual signed-difference comparison. -/
def MultiXactIdPrecedes (a b : Nat) : Bool :=
  decide (2 ^ 63 ≤ (a % xidMod + (xidMod - b % xidMod)) % xidMod)

/-- Modelled from the spec: companion of MultiXactIdPrecedes, true also on
equal ids. -/
def MultiXactIdPrecedesOrEquals (a b : Nat) : Bool :=
  decide ((a % xidMod + (xidMod - b % xidMod)) % xidMod = 0 ∨
    2 ^ 63 ≤ (a % xidMod + (xidMod - b % xidMod)) % xidMod)

/-- Modelled from the spec: the lock-mode status codes of multixact.h are
not under src; their order is pinned by mxstatus_to_string in the source. -/
def MultiXactStatusForKeyShare : Nat := 0

/-- Modelled from the spec: for-share status code. -/
def MultiXactStatusForShare : Nat := 1

/-- Modelled from the spec: for-no-key-update status code. -/
def MultiXactStatusForNoKeyUpdate : Nat := 2

/-- Modelled from the spec: for-update status code. -/
def MultiXactStatusForUpdate : Nat := 3

/-- Modelled from the spec: no-key-update status code (an update kind). -/
def MultiXactStatusNoKeyUpdate : Nat := 4

/-- Modelled from the spec: update status code (an update kind). -/
def MultiXactStatusUpdate : Nat := 5

/-- Modelled from the spec: a status is an update kind exactly when it is
one of the two update statuses, i.e. above for-update in the enum order. -/
def ISUPDATE_from_mxstatus (status : Nat) : Bool := MultiXactStatusForUpdate < status

/-- One multixact member: a TransactionId tagged with a lock-mode status. -/
structure MultiXactMember where
  xid : Nat
  status : Nat
  deriving DecidableEq, Repr

/-- Order used by mxactMemberComparator: by xid, then by status.  The
source sorts with plain integer comparisons, not with the modular precedes
relation. -/
def memberLE (a b : MultiXactMember) : Prop :=
  a.xid < b.xid ∨ (a.xid = b.xid ∧ a.status ≤ b.status)

instance memberLE.instDecidable : DecidableRel memberLE := fun a b => by
  unfold memberLE; exact inferInstance

instance memberLE.instIsTotal : IsTotal MultiXactMember memberLE := by
  constructor
  intro a b
  rcases Nat.lt_trichotomy a.xid b.xid with h | h | h
  · exact Or.inl (Or.inl h)
  · rcases Nat.le_total a.status b.status with h2 | h2
    · exact Or.inl (Or.inr ⟨h, h2⟩)
    · exact Or.inr (Or.inr ⟨h.symm, h2⟩)
  · exact Or.inr (Or.inl h)

instance memberLE.instIsTrans : IsTrans MultiXactMember memberLE := by
  constructor
  intro a b c hab hbc
  rcases hab with h1 | ⟨h1, h1s⟩ <;> rcases hbc with h2 | ⟨h2, h2s⟩
  · exact Or.inl (Nat.lt_trans h1 h2)
  · exact Or.inl (h2 ▸ h1)
  · exact Or.inl (h1 ▸ h2)
  · exact Or.inr ⟨h1.trans h2, h1s.trans h2s⟩

instance memberLE.instIsAntisymm : IsAntisymm MultiXactMember memberLE := by
  constructor
  intro a b hab hba
  cases a with
  | mk ax as =>
    cases b with
    | mk bx bs =>
      simp only [memberLE] at hab hba
      simp only [MultiXactMember.mk.injEq]
      omega

/-- Sorting of a member array, as done by the qsort calls on
mxactMemberComparator.  On arrays whose (xid, status) pairs are pairwise
comparator-distinct (comparator-equal members are literally equal), every
correct sort produces the same output, so insertion sort is a faithful
embedding of qsort here. -/
def sortMembers (ms : List MultiXactMember) : List MultiXactMember :=
  List.insertionSort memberLE ms

theorem sortMembers_perm (ms : List MultiXactMember) : (sortMembers ms).Perm ms :=
  List.perm_insertionSort memberLE ms

theorem sortMembers_sorted (ms : List MultiXactMember) :
    List.Sorted memberLE (sortMembers ms) :=
  List.sorted_insertionSort memberLE ms

theorem sortMembers_eq_of_perm {ms₁ ms₂ : List MultiXactMember} (h : ms₁.Perm ms₂) :
    sortMembers ms₁ = sortMembers ms₂ :=
  List.eq_of_perm_of_sorted
    (((sortMembers_perm ms₁).trans h).trans (sortMembers_perm ms₂).symm)
    (sortMembers_sorted ms₁) (sortMembers_sorted ms₂)

theorem sortMembers_idem (ms : List MultiXactMember) :
    sortMembers (sortMembers ms) = sortMembers ms :=
  List.Sorted.insertionSort_eq (sortMembers_sorted ms)

theorem sortMembers_length (ms : List MultiXactMember) :
    (sortMembers ms).length = ms.length :=
  (sortMembers_perm ms).length_eq

theorem sortMembers_mem {m : MultiXactMember} {ms : List MultiXactMember}
    (h : m ∈ sortMembers ms) : m ∈ ms :=
  (sortMembers_perm ms).mem_iff.mp h

/-- One entry of the backend-local multixact cache: the id together with
the member array, stored sorted by mxactMemberComparator. -/
structure mXactCacheEnt where
  multi : Nat
  members : List MultiXactMember
  deriving DecidableEq, Repr

/-- Maximum number of entries kept in the backend-local cache. -/
def MAX_CACHE_ENTRIES : Nat := 256

/-- Durable records this module hands to the write-ahead log engine. -/
inductive WalRec where
  | zeroOffPage (pageno : Nat)
  | zeroMemPage (pageno : Nat)
  | createId (mid : Nat) (moff : Nat) (members : List MultiXactMember)
  | truncateId (oldestMultiDB startTruncOff endTruncOff startTruncMemb endTruncMemb : Nat)
  deriving DecidableEq, Repr

/-- Shared multixact state together with the two SLRU areas, the
backend-local cache and the per-backend liveness slots of this (single)
backend.  The offsets SLRU is a total map from multixact id to the stored
starting offset (zero-filled pages make unwritten entries read as 0); the
members SLRU keeps one map for the xid cells and one map from member group
number to the 64-bit flag word of that group, exactly mirroring the
byte layout computed by the MXOffsetTo* macros.  The records field
accumulates the WAL records emitted, in order. -/
structure MXState where
  nextMXact : Nat
  nextOffset : Nat
  finishedStartup : Bool
  oldestMultiXactId : Nat
  oldestMultiXactDB : Nat
  multiVacLimit : Nat
  offsetsLog : Nat → Nat
  memberXids : Nat → Nat
  memberFlags : Nat → Nat
  cache : List mXactCacheEnt
  cacheMembers : Nat
  oldestMemberLocal : Nat
  oldestVisibleLocal : Nat
  records : List WalRec

/-- Scan of the cache list from the head, returning the first entry
satisfying the predicate together with the remaining entries in order;
the caller re-links the found entry at the head (dlist_move_head). -/
def cacheLookupMove (p : mXactCacheEnt → Bool) :
    List mXactCacheEnt → Option (mXactCacheEnt × List mXactCacheEnt)
  | [] => none
  | e :: rest =>
    if p e then some (e, rest)
    else
      match cacheLookupMove p rest with
      | none => none
      | some (f, rest') => some (f, e :: rest')

/-- mXactCacheGetBySet: sort the candidate array, then scan the cache for
an entry with the same member content; on a hit move it to the head and
return its multixact id. -/
def mXactCacheGetBySet (cache : List mXactCacheEnt) (members : List MultiXactMember) :
    Option Nat × List mXactCacheEnt :=
  match cacheLookupMove (fun e => decide (e.members = sortMembers members)) cache with
  | none => (none, cache)
  | some (f, rest) => (some f.multi, f :: rest)

/-- mXactCacheGetById: scan the cache for an entry with the given id; on a
hit move it to the head and return its member array. -/
def mXactCacheGetById (cache : List mXactCacheEnt) (multi : Nat) :
    Option (List MultiXactMember) × List mXactCacheEnt :=
  match cacheLookupMove (fun e => decide (e.multi = multi)) cache with
  | none => (none, cache)
  | some (f, rest) => (some f.members, f :: rest)

/-- mXactCachePut: push a new entry (members sorted) at the head; the
entry count is post-incremented against MAX_CACHE_ENTRIES and, when the
old count already reached the bound, the tail entry is evicted. -/
def mXactCachePut (cache : List mXactCacheEnt) (cacheMembers : Nat)
    (multi : Nat) (members : List MultiXactMember) :
    List mXactCacheEnt × Nat :=
  let entry : mXactCacheEnt := ⟨multi, sortMembers members⟩
  if MAX_CACHE_ENTRIES ≤ cacheMembers then ((entry :: cache).dropLast, cacheMembers)
  else (entry :: cache, cacheMembers + 1)

/-- Flag word update performed by RecordNewMultiXact: clear the 8-bit
field at the shift, then or in the status; the C expression works in
uint64, so the shifted values are taken modulo 2^64. -/
def flagAssign (w bshift status : Nat) : Nat :=
  (w &&& (mask64 ^^^ ((MXACT_MEMBER_XACT_BITMASK <<< bshift) % xidMod))) |||
    ((status <<< bshift) % xidMod)

/-- Flag field read performed by GetMultiXactIdMembers. -/
def flagGetStatus (w bshift : Nat) : Nat :=
  (w >>> bshift) &&& MXACT_MEMBER_XACT_BITMASK

/-- Write of one member into the members SLRU: store the xid in its cell
and the status into the 8-bit field of the flag word of its group. -/
def writeMemberSlot (s : MXState) (offset : Nat) (m : MultiXactMember) : MXState :=
  { s with
    memberXids := fun o => if o = offset then m.xid % xidMod else s.memberXids o,
    memberFlags := fun g =>
      if g = MXOffsetToFlagGroup offset then
        flagAssign (s.memberFlags (MXOffsetToFlagGroup offset))
          (MXOffsetToFlagsBitShift offset) m.status
      else s.memberFlags g }

/-- Member-writing loop of RecordNewMultiXact: members are stored at
consecutive offsets, the offset counter being a uint64. -/
def writeMembersFrom (s : MXState) (offset : Nat) : List MultiXactMember → MXState
  | [] => s
  | m :: rest => writeMembersFrom (writeMemberSlot s offset m) ((offset + 1) % xidMod) rest

/-- RecordNewMultiXact: store the starting offset of the new multixact in
the offsets SLRU, then write the members into the members SLRU. -/
def RecordNewMultiXact (s : MXState) (multi offset : Nat)
    (members : List MultiXactMember) : MXState :=
  writeMembersFrom
    { s with offsetsLog := fun m => if m = multi then offset else s.offsetsLog m }
    offset members

/-- ZeroMultiXactOffsetPage: reinitialize an offsets page to zeroes in the
page buffers, optionally emitting the zero-page WAL record. -/
def ZeroMultiXactOffsetPage (s : MXState) (pageno : Nat) (writeXlog : Bool) : MXState :=
  { s with
    offsetsLog := fun m => if MultiXactIdToOffsetPage m = pageno then 0 else s.offsetsLog m,
    records := if writeXlog then s.records ++ [WalRec.zeroOffPage pageno] else s.records }

/-- ZeroMultiXactMemberPage: reinitialize a members page (xid cells and
flag words) to zeroes, optionally emitting the zero-page WAL record. -/
def ZeroMultiXactMemberPage (s : MXState) (pageno : Nat) (writeXlog : Bool) : MXState :=
  { s with
    memberXids := fun o => if MXOffsetToMemberPage o = pageno then 0 else s.memberXids o,
    memberFlags := fun g =>
      if g / MULTIXACT_MEMBERGROUPS_PER_PAGE = pageno then 0 else s.memberFlags g,
    records := if writeXlog then s.records ++ [WalRec.zeroMemPage pageno] else s.records }

/-- ExtendMultiXactOffset: no work except at the first multixact id of a
page (with the wraparound special case for FirstMultiXactId), where the
new page is zeroed and a WAL record written. -/
def ExtendMultiXactOffset (s : MXState) (multi : Nat) : MXState :=
  if MultiXactIdToOffsetEntry multi ≠ 0 ∧ multi ≠ FirstMultiXactId then s
  else ZeroMultiXactOffsetPage s (MultiXactIdToOffsetPage multi) true

/-- Loop body of ExtendMultiXactMember.  The C loop runs while the signed
member count is positive, subtracting at each step the number of member
slots from the current offset to the end of its page (at least 1), so it
iterates at most nmembers times; the fuel argument, initialised to
nmembers by ExtendMultiXactMember, therefore never runs out before the
count reaches zero, and makes the recursion structural.  The saturating
Nat subtraction on the count matches the C termination test on a signed
count that may go negative. -/
def ExtendMultiXactMemberLoop (s : MXState) (offset nmembers fuel : Nat) : MXState :=
  match fuel with
  | 0 => s
  | fuel + 1 =>
    if nmembers = 0 then s
    else
      let s' :=
        if MXOffsetToFlagsOffset offset = 0 ∧ MXOffsetToFlagsBitShift offset = 0 then
          ZeroMultiXactMemberPage s (MXOffsetToMemberPage offset) true
        else s
      let difference := MULTIXACT_MEMBERS_PER_PAGE - offset % MULTIXACT_MEMBERS_PER_PAGE
      ExtendMultiXactMemberLoop s' ((offset + difference) % xidMod) (nmembers - difference) fuel

/-- ExtendMultiXactMember: make room in the members area for the new
members, zeroing (and WAL-logging) every fresh page the reserved range
touches. -/
def ExtendMultiXactMember (s : MXState) (offset nmembers : Nat) : MXState :=
  ExtendMultiXactMemberLoop s offset nmembers nmembers

/-- Wraparound fixup applied to nextMXact at the top of GetNewMultiXactId
(and wherever the counter is read for use as an id). -/
def allocMulti (s : MXState) : Nat :=
  if s.nextMXact < FirstMultiXactId then FirstMultiXactId else s.nextMXact

/-- GetNewMultiXactId: fix up a wrapped nextMXact, take it as the result
id, run the wraparound-pressure check (which re-reads the counter after
dropping the lock; serially the value is unchanged, the autovacuum signal
being an external side effect), extend the offsets area for the id,
reserve the starting offset, extend the members area, then advance both
counters (uint64 increments). -/
def GetNewMultiXactId (s : MXState) (nmembers : Nat) : Nat × Nat × MXState :=
  let s0 := { s with nextMXact := allocMulti s }
  let result :=
    if MultiXactIdPrecedes s0.nextMXact s0.multiVacLimit then s0.nextMXact else s0.nextMXact
  let s1 := ExtendMultiXactOffset s0 result
  let offset := s1.nextOffset
  let s2 := ExtendMultiXactMember s1 offset nmembers
  (result, offset,
    { s2 with
      nextMXact := (s2.nextMXact + 1) % xidMod,
      nextOffset := (s2.nextOffset + nmembers) % xidMod })

/-- MultiXactIdSetOldestVisible for the single backend of this serial
model: if not yet set for this transaction, compute the oldest of the
(wraparound-fixed) nextMXact and the valid per-backend oldest-member
entries, and store it in the oldest-visible slot. -/
def MultiXactIdSetOldestVisible (s : MXState) : MXState :=
  if s.oldestVisibleLocal ≠ InvalidMultiXactId then s
  else
    let oldest0 := if s.nextMXact < FirstMultiXactId then FirstMultiXactId else s.nextMXact
    let oldest :=
      if s.oldestMemberLocal ≠ InvalidMultiXactId ∧
          MultiXactIdPrecedes s.oldestMemberLocal oldest0 then
        s.oldestMemberLocal
      else oldest0
    { s with oldestVisibleLocal := oldest }

/-- Difference of two uint64 values as computed by the C subtractions on
MultiXactOffset. -/
def sub64 (a b : Nat) : Nat := (a % xidMod + (xidMod - b % xidMod)) % xidMod

/-- Member-reading loop of GetMultiXactIdMembers: read length entries
starting at the given offset, skipping any entry whose xid cell reads as
the invalid xid 0 (corner case 3: the unused slot zero). -/
def readMembers (s : MXState) (offset : Nat) : Nat → List MultiXactMember
  | 0 => []
  | len + 1 =>
    let xid := s.memberXids offset
    let rest := readMembers s ((offset + 1) % xidMod) len
    if xid = 0 then rest
    else
      ⟨xid,
        flagGetStatus (s.memberFlags (MXOffsetToFlagGroup offset))
          (MXOffsetToFlagsBitShift offset)⟩ :: rest

/-- Outcome of GetMultiXactIdMembers: the -1 return (no members), a member
array, or the backoff-and-retry path of corner case 2, which in this
serial model cannot make progress (only a concurrent writer can fill the
zero offset entry that was read). -/
inductive GetMembersResult where
  | noMembers
  | found (ms : List MultiXactMember)
  | retry
  deriving DecidableEq, Repr

/-- GetMultiXactIdMembers: resolve a multixact id to its member array.
Invalid ids and pg_upgrade multis yield the -1 return; then the cache is
tried; then the oldest-visible slot is set and the lock-only
short-circuit tested; then the offsets SLRU gives the starting offset,
the member count being the difference to the next offset entry (corner
case 1 uses nextOffset when the id is the newest; corner case 2 retries
on the zero sentinel), and the members are read and the result cached.
The known-limits checks described by the comment block in the source
(errors on ids below oldestMultiXactId or at/after nextMXact) are absent
from the code: only nextMXact and nextOffset are read there, so this
embedding proceeds straight to the SLRU lookups, and no error outcome
exists.  The C member count is a 32-bit int truncation of the uint64
offset difference; states considered here keep that difference below
2^31, where the two agree. -/
def GetMultiXactIdMembers (s : MXState) (multi : Nat)
    (from_pgupgrade onlyLock : Bool) : GetMembersResult × MXState :=
  if multi = InvalidMultiXactId ∨ from_pgupgrade then (GetMembersResult.noMembers, s)
  else
    match mXactCacheGetById s.cache multi with
    | (some ms, cache') => (GetMembersResult.found ms, { s with cache := cache' })
    | (none, _) =>
      let s1 := MultiXactIdSetOldestVisible s
      if onlyLock ∧ MultiXactIdPrecedes multi s1.oldestVisibleLocal then
        (GetMembersResult.noMembers, s1)
      else
        let nextMXact := s1.nextMXact
        let nextOffset := s1.nextOffset
        let offset := s1.offsetsLog multi
        let tmpMXact := (multi + 1) % xidMod
        if nextMXact = tmpMXact then
          let length := sub64 nextOffset offset
          let ms := readMembers s1 offset length
          let put := mXactCachePut s1.cache s1.cacheMembers multi ms
          (GetMembersResult.found ms, { s1 with cache := put.1, cacheMembers := put.2 })
        else
          let nextMXOffset := s1.offsetsLog tmpMXact
          if nextMXOffset = 0 then (GetMembersResult.retry, s1)
          else
            let length := sub64 nextMXOffset offset
            let ms := readMembers s1 offset length
            let put := mXactCachePut s1.cache s1.cacheMembers multi ms
            (GetMembersResult.found ms, { s1 with cache := put.1, cacheMembers := put.2 })

/-- Number of update-status members of an array, for the single-update
check of MultiXactIdCreateFromMembers. -/
def countUpdates (ms : List MultiXactMember) : Nat :=
  (ms.filter fun m => ISUPDATE_from_mxstatus m.status).length

/-- Errors this module raises with elog(ERROR). -/
inductive MXError where
  | duplicateUpdateMember
  deriving DecidableEq, Repr

/-- MultiXactIdCreateFromMembers: look the (sorted in place) member set up
in the cache and return the cached id on a hit with no further work;
otherwise check the single-update invariant (elog ERROR on violation),
reserve id and offsets via GetNewMultiXactId, emit the create WAL record,
write both SLRUs via RecordNewMultiXact, and cache the new multixact.
After the cache lookup the caller array is sorted, so the WAL record, the
SLRU writes and the cache store all see the sorted array. -/
def MultiXactIdCreateFromMembers (s : MXState) (members : List MultiXactMember) :
    Except MXError (Nat × MXState) :=
  let sorted := sortMembers members
  match mXactCacheGetBySet s.cache members with
  | (some multi, cache') => Except.ok (multi, { s with cache := cache' })
  | (none, _) =>
    if 2 ≤ countUpdates members then Except.error MXError.duplicateUpdateMember
    else
      let r := GetNewMultiXactId s members.length
      let multi := r.1
      let offset := r.2.1
      let s1 := r.2.2
      let s2 := { s1 with records := s1.records ++ [WalRec.createId multi offset sorted] }
      let s3 := RecordNewMultiXact s2 multi offset sorted
      let put := mXactCachePut s3.cache s3.cacheMembers multi sorted
      Except.ok (multi, { s3 with cache := put.1, cacheMembers := put.2 })

/-- Outcome of MultiXactIdExpand. -/
inductive ExpandResult where
  | ok (multi : Nat)
  | retry
  | err (e : MXError)
  deriving DecidableEq, Repr

/-- Propagation of the MultiXactIdCreateFromMembers outcome out of
MultiXactIdExpand: a raised elog(ERROR) escapes to the caller. -/
def expandResultOfCreate (r : Except MXError (Nat × MXState)) (s : MXState) :
    ExpandResult × MXState :=
  match r with
  | Except.ok (m, s2) => (ExpandResult.ok m, s2)
  | Except.error e => (ExpandResult.err e, s)

/-- Filter condition of the member-keeping loop of MultiXactIdExpand: a
member is kept when its xid is still in progress, or when it has an
update status and committed.  The liveness and commit oracles are the
external collaborators TransactionIdIsInProgress and
TransactionIdDidCommit. -/
def expandKeep (inProgress didCommit : Nat → Bool) (m : MultiXactMember) : Bool :=
  inProgress m.xid || (ISUPDATE_from_mxstatus m.status && didCommit m.xid)

/-- Member-rebuilding loop of MultiXactIdExpand: walk the old members
appending the kept ones to the new array, then append the new member. -/
def expandNewMembers (inProgress didCommit : Nat → Bool)
    (ms : List MultiXactMember) (xid status : Nat) : List MultiXactMember :=
  (ms.foldl (fun acc m => if expandKeep inProgress didCommit m then acc ++ [m] else acc) [])
    ++ [⟨xid, status⟩]

/-- MultiXactIdExpand: resolve the members of the existing multixact; on
the -1 return build a singleton multixact for the new member; if the
(xid, status) pair is already a member return the existing id unchanged;
otherwise keep the still-interesting members, append the new one and
delegate to MultiXactIdCreateFromMembers. -/
def MultiXactIdExpand (inProgress didCommit : Nat → Bool) (s : MXState)
    (multi xid status : Nat) : ExpandResult × MXState :=
  match GetMultiXactIdMembers s multi false false with
  | (GetMembersResult.retry, s1) => (ExpandResult.retry, s1)
  | (GetMembersResult.noMembers, s1) =>
    expandResultOfCreate (MultiXactIdCreateFromMembers s1 [⟨xid, status⟩]) s1
  | (GetMembersResult.found ms, s1) =>
    if ms.any fun m => decide (m.xid = xid ∧ m.status = status) then
      (ExpandResult.ok multi, s1)
    else
      expandResultOfCreate
        (MultiXactIdCreateFromMembers s1 (expandNewMembers inProgress didCommit ms xid status))
        s1

/-- AtEOXact_MultiXact: reset the per-backend liveness slots and discard
the backend-local cache at transaction end. -/
def AtEOXact_MultiXact (s : MXState) : MXState :=
  { s with
    oldestMemberLocal := InvalidMultiXactId,
    oldestVisibleLocal := InvalidMultiXactId,
    cache := [],
    cacheMembers := 0 }

/-- PreviousMultiXactId macro: step back one id, wrapping from
FirstMultiXactId to MaxMultiXactId. -/
def PreviousMultiXactId (multi : Nat) : Nat :=
  if multi = FirstMultiXactId then MaxMultiXactId else multi - 1

/-- External inputs of TruncateMultiXact: the result of the offsets
directory scan for the earliest existing segment page (none models the -1
initial value surviving an empty scan), and the physical-page existence
test used by find_multixact_start.  Both are services of the generic SLRU
primitive, an external collaborator. -/
structure TruncateEnv where
  earliestExistingPage : Option Nat
  physPageExists : Nat → Bool

/-- find_multixact_start: fail if the offsets page of the multixact does
not exist on disk, else read its starting member offset from the offsets
SLRU. -/
def find_multixact_start (env : TruncateEnv) (s : MXState) (multi : Nat) : Option Nat :=
  if env.physPageExists (MultiXactIdToOffsetPage multi) then some (s.offsetsLog multi)
  else none

/-- Largest members segment number. -/
def maxMemberSegment : Nat := MXOffsetToMemberPage MaxMultiXactOffset / SLRU_PAGES_PER_SEGMENT

/-- Members segment of a member offset. -/
def MXOffsetToMemberSegment (offset : Nat) : Nat :=
  MXOffsetToMemberPage offset / SLRU_PAGES_PER_SEGMENT

/-- Closed form of the segment-deletion loop of PerformMembersTruncation:
all segments from the start segment up to (excluding) the end segment,
stepping with wraparound at maxMemberSegment. -/
def memberSegmentRange (startseg endseg : Nat) : List Nat :=
  if startseg ≤ endseg then List.range' startseg (endseg - startseg)
  else List.range' startseg (maxMemberSegment + 1 - startseg) ++ List.range' 0 endseg

/-- PerformMembersTruncation: delete every members segment from the one
of the old oldest offset up to, excluding, the one of the new oldest
offset (the last segment may still hold valid data).  The deletions are
calls into the external SLRU primitive; the embedding records them. -/
def PerformMembersTruncation (s : MXState) (oldestOffset newOldestOffset : Nat) :
    MXState × List Nat :=
  (s, memberSegmentRange (MXOffsetToMemberSegment oldestOffset)
    (MXOffsetToMemberSegment newOldestOffset))

/-- PerformOffsetsTruncation: truncate the offsets SLRU at the page of the
multixact one before the new oldest (stepping back to avoid a
not-yet-created cutoff page).  The call into SimpleLruTruncate is
external; the embedding records the cutoff page passed to it. -/
def PerformOffsetsTruncation (newOldestMulti : Nat) : Nat :=
  MultiXactIdToOffsetPage (PreviousMultiXactId newOldestMulti)

/-- Effects of one TruncateMultiXact call: the new shared state, whether a
truncation was performed, the members segments deleted, and the offsets
cutoff page handed to SimpleLruTruncate. -/
structure TruncateOutcome where
  state : MXState
  performed : Bool
  deletedMemberSegments : List Nat
  offsetsTruncatedAtPage : Option Nat

/-- TruncateMultiXact: under the truncation lock, read the counters; bail
out (complete no-op) if the requested new floor does not advance past the
current oldest id; clamp against the earliest offsets page physically on
disk and bail out if the current oldest precedes it; resolve the member
offsets of the current oldest and of the new floor (skipping the cycle,
with a log message, if either lookup fails); then, inside one critical
section, WAL-log the truncation, advance the in-memory oldest id before
any deletion, delete members segments, and truncate the offsets SLRU. -/
def TruncateMultiXact (env : TruncateEnv) (s : MXState)
    (newOldestMulti newOldestMultiDB : Nat) : TruncateOutcome :=
  let nextMulti := s.nextMXact
  let nextOffset := s.nextOffset
  let oldestMulti := s.oldestMultiXactId
  if MultiXactIdPrecedesOrEquals newOldestMulti oldestMulti then ⟨s, false, [], none⟩
  else
    let earliest0 :=
      match env.earliestExistingPage with
      | some p => (p * MULTIXACT_OFFSETS_PER_PAGE) % xidMod
      | none => xidMod - MULTIXACT_OFFSETS_PER_PAGE
    let earliest := if earliest0 < FirstMultiXactId then FirstMultiXactId else earliest0
    if MultiXactIdPrecedes oldestMulti earliest then ⟨s, false, [], none⟩
    else
      let oldestOffsetOpt :=
        if oldestMulti = nextMulti then some nextOffset
        else find_multixact_start env s oldestMulti
      match oldestOffsetOpt with
      | none => ⟨s, false, [], none⟩
      | some oldestOffset =>
        let newOldestOffsetOpt :=
          if newOldestMulti = nextMulti then some nextOffset
          else find_multixact_start env s newOldestMulti
        match newOldestOffsetOpt with
        | none => ⟨s, false, [], none⟩
        | some newOldestOffset =>
          let s1 := { s with
            records := s.records ++
              [WalRec.truncateId newOldestMultiDB oldestMulti newOldestMulti
                oldestOffset newOldestOffset] }
          let s2 := { s1 with
            oldestMultiXactId := newOldestMulti,
            oldestMultiXactDB := newOldestMultiDB }
          let memb := PerformMembersTruncation s2 oldestOffset newOldestOffset
          ⟨memb.1, true, memb.2, some (PerformOffsetsTruncation newOldestMulti)⟩

/-- Serial sequence of GetNewMultiXactId calls with the given member
counts, returning the (id, starting offset) pairs assigned, in order. -/
def allocSequence (s : MXState) : List Nat → List (Nat × Nat) × MXState
  | [] => ([], s)
  | n :: rest =>
    let r := GetNewMultiXactId s n
    let tail := allocSequence r.2.2 rest
    ((r.1, r.2.1) :: tail.1, tail.2)

/-- Multixact id returned by a successful MultiXactIdCreateFromMembers
call (0 when the call raises). -/
def createdId (s : MXState) (ms : List MultiXactMember) : Nat :=
  match MultiXactIdCreateFromMembers s ms with
  | Except.ok r => r.1
  | Except.error _ => 0

/-- State after a successful MultiXactIdCreateFromMembers call (the input
state when the call raises). -/
def createdState (s : MXState) (ms : List MultiXactMember) : MXState :=
  match MultiXactIdCreateFromMembers s ms with
  | Except.ok r => r.2
  | Except.error _ => s

/-- Result component of GetMultiXactIdMembers with the flags both false,
as called by MultiXactIdExpand. -/
def resolveResult (s : MXState) (multi : Nat) : GetMembersResult :=
  (GetMultiXactIdMembers s multi false false).1

/-- State component of GetMultiXactIdMembers with the flags both false. -/
def resolveState (s : MXState) (multi : Nat) : MXState :=
  (GetMultiXactIdMembers s multi false false).2

/-- Freshly started state: empty logs, empty cache, counters at their
first valid values. -/
def initState : MXState where
  nextMXact := 1
  nextOffset := 1
  finishedStartup := true
  oldestMultiXactId := 1
  oldestMultiXactDB := 0
  multiVacLimit := 2 ^ 32
  offsetsLog := fun _ => 0
  memberXids := fun _ => 0
  memberFlags := fun _ => 0
  cache := []
  cacheMembers := 0
  oldestMemberLocal := 0
  oldestVisibleLocal := 0
  records := []

theorem shiftLeft_byte_lt {st k : Nat} (hst : st < 256) (hk : k < 8) :
    st <<< (k * 8) < 2 ^ 64 := by
  rw [Nat.shiftLeft_eq]
  calc st * 2 ^ (k * 8) ≤ 255 * 2 ^ 56 := by
        apply Nat.mul_le_mul (by omega)
        exact Nat.pow_le_pow_right (by norm_num) (by omega)
    _ < 2 ^ 64 := by norm_num

theorem testBit_byte_ge {st j : Nat} (hst : st < 256) (hj : 8 ≤ j) :
    Nat.testBit st j = false := by
  apply Nat.testBit_lt_two_pow
  calc st < 256 := hst
    _ = 2 ^ 8 := by norm_num
    _ ≤ 2 ^ j := Nat.pow_le_pow_right (by norm_num) hj

theorem flagGetStatus_flagAssign_self (w st k : Nat) (hst : st < 256) (hk : k < 8) :
    flagGetStatus (flagAssign w (k * 8) st) (k * 8) = st := by
  have h255 : MXACT_MEMBER_XACT_BITMASK = 2 ^ 8 - 1 := by
    simp [MXACT_MEMBER_XACT_BITMASK, MXACT_MEMBER_BITS_PER_XACT, Nat.one_shiftLeft]
  have hm1 : ((2 ^ 8 - 1 : Nat) <<< (k * 8)) % xidMod = (2 ^ 8 - 1) <<< (k * 8) :=
    Nat.mod_eq_of_lt (shiftLeft_byte_lt (by norm_num) hk)
  have hm2 : (st <<< (k * 8)) % xidMod = st <<< (k * 8) :=
    Nat.mod_eq_of_lt (shiftLeft_byte_lt hst hk)
  unfold flagGetStatus flagAssign
  rw [h255, hm1, hm2]
  apply Nat.eq_of_testBit_eq
  intro i
  simp only [Nat.testBit_and, Nat.testBit_or, Nat.testBit_xor, Nat.testBit_shiftRight,
    Nat.testBit_shiftLeft, Nat.testBit_two_pow_sub_one, mask64, Nat.add_sub_cancel_left,
    ge_iff_le]
  have hle : k * 8 ≤ k * 8 + i := Nat.le_add_right _ _
  by_cases hi : i < 8
  · have h64 : k * 8 + i < 64 := by omega
    simp [hi, h64, hle]
  · have hbit : Nat.testBit st i = false := testBit_byte_ge hst (by omega)
    simp [hi, hbit]

theorem flagGetStatus_flagAssign_other (w st k k' : Nat) (hst : st < 256)
    (hk : k < 8) (hk' : k' < 8) (hne : k ≠ k') :
    flagGetStatus (flagAssign w (k * 8) st) (k' * 8) = flagGetStatus w (k' * 8) := by
  have h255 : MXACT_MEMBER_XACT_BITMASK = 2 ^ 8 - 1 := by
    simp [MXACT_MEMBER_XACT_BITMASK, MXACT_MEMBER_BITS_PER_XACT, Nat.one_shiftLeft]
  have hm1 : ((2 ^ 8 - 1 : Nat) <<< (k * 8)) % xidMod = (2 ^ 8 - 1) <<< (k * 8) :=
    Nat.mod_eq_of_lt (shiftLeft_byte_lt (by norm_num) hk)
  have hm2 : (st <<< (k * 8)) % xidMod = st <<< (k * 8) :=
    Nat.mod_eq_of_lt (shiftLeft_byte_lt hst hk)
  unfold flagGetStatus flagAssign
  rw [h255, hm1, hm2]
  apply Nat.eq_of_testBit_eq
  intro i
  simp only [Nat.testBit_and, Nat.testBit_or, Nat.testBit_xor, Nat.testBit_shiftRight,
    Nat.testBit_shiftLeft, Nat.testBit_two_pow_sub_one, mask64, ge_iff_le]
  by_cases hi : i < 8
  · have h64 : k' * 8 + i < 64 := by omega
    rcases Nat.lt_or_ge k' k with hlt | hge
    · have hle : ¬ (k * 8 ≤ k' * 8 + i) := by omega
      simp [hi, h64, hle]
    · have hkk : k < k' := by omega
      have hle : k * 8 ≤ k' * 8 + i := by omega
      have hsub : 8 ≤ k' * 8 + i - k * 8 := by omega
      have hb1 : Nat.testBit st (k' * 8 + i - k * 8) = false := testBit_byte_ge hst hsub
      have hb2 : ¬ (k' * 8 + i - k * 8 < 8) := by omega
      simp [hi, h64, hle, hb1, hb2]
  · simp [hi]

theorem cacheLookupMove_eq_none {p : mXactCacheEnt → Bool} :
    ∀ {l : List mXactCacheEnt}, (∀ e ∈ l, p e = false) → cacheLookupMove p l = none := by
  intro l
  induction l with
  | nil => intro _; rfl
  | cons e rest ih =>
    intro h
    unfold cacheLookupMove
    rw [h e (by simp), ih fun f hf => h f (by simp [hf])]
    simp

theorem cacheLookupMove_found {p : mXactCacheEnt → Bool} :
    ∀ {l : List mXactCacheEnt} {f : mXactCacheEnt} {rest : List mXactCacheEnt},
      cacheLookupMove p l = some (f, rest) → p f = true := by
  intro l
  induction l with
  | nil => intro f rest h; simp [cacheLookupMove] at h
  | cons e tail ih =>
    intro f rest h
    unfold cacheLookupMove at h
    by_cases he : p e
    · rw [if_pos he] at h
      obtain ⟨rfl, rfl⟩ := by simpa using h
      exact he
    · rw [if_neg he] at h
      cases htail : cacheLookupMove p tail with
      | none => rw [htail] at h; simp at h
      | some pr =>
        rw [htail] at h
        obtain ⟨g, rest'⟩ := pr
        simp only at h
        obtain ⟨rfl, rfl⟩ := by simpa using h
        exact ih htail

theorem ExtendMultiXactMemberLoop_proj (fuel : Nat) :
    ∀ (s : MXState) (offset nmembers : Nat),
      (ExtendMultiXactMemberLoop s offset nmembers fuel).cache = s.cache ∧
      (ExtendMultiXactMemberLoop s offset nmembers fuel).cacheMembers = s.cacheMembers ∧
      (ExtendMultiXactMemberLoop s offset nmembers fuel).nextMXact = s.nextMXact ∧
      (ExtendMultiXactMemberLoop s offset nmembers fuel).nextOffset = s.nextOffset ∧
      (ExtendMultiXactMemberLoop s offset nmembers fuel).offsetsLog = s.offsetsLog ∧
      (ExtendMultiXactMemberLoop s offset nmembers fuel).oldestMemberLocal =
        s.oldestMemberLocal ∧
      (ExtendMultiXactMemberLoop s offset nmembers fuel).oldestVisibleLocal =
        s.oldestVisibleLocal := by
  induction fuel with
  | zero => intro s offset nmembers; exact ⟨rfl, rfl, rfl, rfl, rfl, rfl, rfl⟩
  | succ fuel ih =>
    intro s offset nmembers
    show
      (ExtendMultiXactMemberLoop s offset nmembers (fuel + 1)).cache = s.cache ∧ _
    unfold ExtendMultiXactMemberLoop
    by_cases h0 : nmembers = 0
    · rw [if_pos h0]; exact ⟨rfl, rfl, rfl, rfl, rfl, rfl, rfl⟩
    · rw [if_neg h0]
      by_cases hz : MXOffsetToFlagsOffset offset = 0 ∧ MXOffsetToFlagsBitShift offset = 0
      · rw [if_pos hz]
        have h := ih (ZeroMultiXactMemberPage s (MXOffsetToMemberPage offset) true)
          ((offset + (MULTIXACT_MEMBERS_PER_PAGE - offset % MULTIXACT_MEMBERS_PER_PAGE)) %
            xidMod)
          (nmembers - (MULTIXACT_MEMBERS_PER_PAGE - offset % MULTIXACT_MEMBERS_PER_PAGE))
        simpa [ZeroMultiXactMemberPage] using h
      · rw [if_neg hz]
        exact ih s _ _

theorem ExtendMultiXactMember_proj (s : MXState) (offset nmembers : Nat) :
    (ExtendMultiXactMember s offset nmembers).cache = s.cache ∧
    (ExtendMultiXactMember s offset nmembers).cacheMembers = s.cacheMembers ∧
    (ExtendMultiXactMember s offset nmembers).nextMXact = s.nextMXact ∧
    (ExtendMultiXactMember s offset nmembers).nextOffset = s.nextOffset ∧
    (ExtendMultiXactMember s offset nmembers).offsetsLog = s.offsetsLog ∧
    (ExtendMultiXactMember s offset nmembers).oldestMemberLocal = s.oldestMemberLocal ∧
    (ExtendMultiXactMember s offset nmembers).oldestVisibleLocal = s.oldestVisibleLocal :=
  ExtendMultiXactMemberLoop_proj nmembers s offset nmembers

theorem ExtendMultiXactOffset_proj (s : MXState) (multi : Nat) :
    (ExtendMultiXactOffset s multi).cache = s.cache ∧
    (ExtendMultiXactOffset s multi).cacheMembers = s.cacheMembers ∧
    (ExtendMultiXactOffset s multi).nextMXact = s.nextMXact ∧
    (ExtendMultiXactOffset s multi).nextOffset = s.nextOffset ∧
    (ExtendMultiXactOffset s multi).memberXids = s.memberXids ∧
    (ExtendMultiXactOffset s multi).memberFlags = s.memberFlags ∧
    (ExtendMultiXactOffset s multi).oldestMemberLocal = s.oldestMemberLocal ∧
    (ExtendMultiXactOffset s multi).oldestVisibleLocal = s.oldestVisibleLocal := by
  unfold ExtendMultiXactOffset ZeroMultiXactOffsetPage
  by_cases h : MultiXactIdToOffsetEntry multi ≠ 0 ∧ multi ≠ FirstMultiXactId
  · rw [if_pos h]; exact ⟨rfl, rfl, rfl, rfl, rfl, rfl, rfl, rfl⟩
  · rw [if_neg h]; exact ⟨rfl, rfl, rfl, rfl, rfl, rfl, rfl, rfl⟩

theorem writeMembersFrom_proj :
    ∀ (ms : List MultiXactMember) (s : MXState) (offset : Nat),
      (writeMembersFrom s offset ms).cache = s.cache ∧
      (writeMembersFrom s offset ms).cacheMembers = s.cacheMembers ∧
      (writeMembersFrom s offset ms).nextMXact = s.nextMXact ∧
      (writeMembersFrom s offset ms).nextOffset = s.nextOffset ∧
      (writeMembersFrom s offset ms).offsetsLog = s.offsetsLog ∧
      (writeMembersFrom s offset ms).oldestMemberLocal = s.oldestMemberLocal ∧
      (writeMembersFrom s offset ms).oldestVisibleLocal = s.oldestVisibleLocal := by
  intro ms
  induction ms with
  | nil => intro s offset; exact ⟨rfl, rfl, rfl, rfl, rfl, rfl, rfl⟩
  | cons m rest ih =>
    intro s offset
    have h := ih (writeMemberSlot s offset m) ((offset + 1) % xidMod)
    simpa [writeMembersFrom, writeMemberSlot] using h

theorem ExtendMultiXactMember_cache (s : MXState) (o n : Nat) :
    (ExtendMultiXactMember s o n).cache = s.cache := (ExtendMultiXactMember_proj s o n).1

theorem ExtendMultiXactMember_cacheMembers (s : MXState) (o n : Nat) :
    (ExtendMultiXactMember s o n).cacheMembers = s.cacheMembers :=
  (ExtendMultiXactMember_proj s o n).2.1

theorem ExtendMultiXactMember_nextMXact (s : MXState) (o n : Nat) :
    (ExtendMultiXactMember s o n).nextMXact = s.nextMXact :=
  (ExtendMultiXactMember_proj s o n).2.2.1

theorem ExtendMultiXactMember_nextOffset (s : MXState) (o n : Nat) :
    (ExtendMultiXactMember s o n).nextOffset = s.nextOffset :=
  (ExtendMultiXactMember_proj s o n).2.2.2.1

theorem ExtendMultiXactMember_offsetsLog (s : MXState) (o n : Nat) :
    (ExtendMultiXactMember s o n).offsetsLog = s.offsetsLog :=
  (ExtendMultiXactMember_proj s o n).2.2.2.2.1

theorem ExtendMultiXactMember_oldestMemberLocal (s : MXState) (o n : Nat) :
    (ExtendMultiXactMember s o n).oldestMemberLocal = s.oldestMemberLocal :=
  (ExtendMultiXactMember_proj s o n).2.2.2.2.2.1

theorem ExtendMultiXactMember_oldestVisibleLocal (s : MXState) (o n : Nat) :
    (ExtendMultiXactMember s o n).oldestVisibleLocal = s.oldestVisibleLocal :=
  (ExtendMultiXactMember_proj s o n).2.2.2.2.2.2

theorem ExtendMultiXactOffset_cache (s : MXState) (m : Nat) :
    (ExtendMultiXactOffset s m).cache = s.cache := (ExtendMultiXactOffset_proj s m).1

theorem ExtendMultiXactOffset_cacheMembers (s : MXState) (m : Nat) :
    (ExtendMultiXactOffset s m).cacheMembers = s.cacheMembers :=
  (ExtendMultiXactOffset_proj s m).2.1

theorem ExtendMultiXactOffset_nextMXact (s : MXState) (m : Nat) :
    (ExtendMultiXactOffset s m).nextMXact = s.nextMXact :=
  (ExtendMultiXactOffset_proj s m).2.2.1

theorem ExtendMultiXactOffset_nextOffset (s : MXState) (m : Nat) :
    (ExtendMultiXactOffset s m).nextOffset = s.nextOffset :=
  (ExtendMultiXactOffset_proj s m).2.2.2.1

theorem ExtendMultiXactOffset_memberXids (s : MXState) (m : Nat) :
    (ExtendMultiXactOffset s m).memberXids = s.memberXids :=
  (ExtendMultiXactOffset_proj s m).2.2.2.2.1

theorem ExtendMultiXactOffset_memberFlags (s : MXState) (m : Nat) :
    (ExtendMultiXactOffset s m).memberFlags = s.memberFlags :=
  (ExtendMultiXactOffset_proj s m).2.2.2.2.2.1

theorem ExtendMultiXactOffset_oldestMemberLocal (s : MXState) (m : Nat) :
    (ExtendMultiXactOffset s m).oldestMemberLocal = s.oldestMemberLocal :=
  (ExtendMultiXactOffset_proj s m).2.2.2.2.2.2.1

theorem ExtendMultiXactOffset_oldestVisibleLocal (s : MXState) (m : Nat) :
    (ExtendMultiXactOffset s m).oldestVisibleLocal = s.oldestVisibleLocal :=
  (ExtendMultiXactOffset_proj s m).2.2.2.2.2.2.2

theorem writeMembersFrom_cache (ms : List MultiXactMember) (s : MXState) (o : Nat) :
    (writeMembersFrom s o ms).cache = s.cache := (writeMembersFrom_proj ms s o).1

theorem writeMembersFrom_cacheMembers (ms : List MultiXactMember) (s : MXState) (o : Nat) :
    (writeMembersFrom s o ms).cacheMembers = s.cacheMembers :=
  (writeMembersFrom_proj ms s o).2.1

theorem writeMembersFrom_nextMXact (ms : List MultiXactMember) (s : MXState) (o : Nat) :
    (writeMembersFrom s o ms).nextMXact = s.nextMXact := (writeMembersFrom_proj ms s o).2.2.1

theorem writeMembersFrom_nextOffset (ms : List MultiXactMember) (s : MXState) (o : Nat) :
    (writeMembersFrom s o ms).nextOffset = s.nextOffset :=
  (writeMembersFrom_proj ms s o).2.2.2.1

theorem writeMembersFrom_offsetsLog (ms : List MultiXactMember) (s : MXState) (o : Nat) :
    (writeMembersFrom s o ms).offsetsLog = s.offsetsLog :=
  (writeMembersFrom_proj ms s o).2.2.2.2.1

theorem writeMembersFrom_oldestMemberLocal (ms : List MultiXactMember) (s : MXState)
    (o : Nat) :
    (writeMembersFrom s o ms).oldestMemberLocal = s.oldestMemberLocal :=
  (writeMembersFrom_proj ms s o).2.2.2.2.2.1

theorem writeMembersFrom_oldestVisibleLocal (ms : List MultiXactMember) (s : MXState)
    (o : Nat) :
    (writeMembersFrom s o ms).oldestVisibleLocal = s.oldestVisibleLocal :=
  (writeMembersFrom_proj ms s o).2.2.2.2.2.2

theorem GetNewMultiXactId_fst (s : MXState) (nmembers : Nat) :
    (GetNewMultiXactId s nmembers).1 = allocMulti s := by
  unfold GetNewMultiXactId
  simp [ite_self]

theorem GetNewMultiXactId_offset (s : MXState) (nmembers : Nat) :
    (GetNewMultiXactId s nmembers).2.1 = s.nextOffset := by
  unfold GetNewMultiXactId
  simp [ExtendMultiXactOffset_nextOffset]

theorem GetNewMultiXactId_nextMXact (s : MXState) (nmembers : Nat) :
    (GetNewMultiXactId s nmembers).2.2.nextMXact = (allocMulti s + 1) % xidMod := by
  unfold GetNewMultiXactId
  simp [ExtendMultiXactMember_nextMXact, ExtendMultiXactOffset_nextMXact]

theorem GetNewMultiXactId_nextOffset (s : MXState) (nmembers : Nat) :
    (GetNewMultiXactId s nmembers).2.2.nextOffset = (s.nextOffset + nmembers) % xidMod := by
  unfold GetNewMultiXactId
  simp [ExtendMultiXactMember_nextOffset, ExtendMultiXactOffset_nextOffset]

theorem GetNewMultiXactId_cache (s : MXState) (nmembers : Nat) :
    (GetNewMultiXactId s nmembers).2.2.cache = s.cache := by
  unfold GetNewMultiXactId
  simp [ExtendMultiXactMember_cache, ExtendMultiXactOffset_cache]

theorem GetNewMultiXactId_cacheMembers (s : MXState) (nmembers : Nat) :
    (GetNewMultiXactId s nmembers).2.2.cacheMembers = s.cacheMembers := by
  unfold GetNewMultiXactId
  simp [ExtendMultiXactMember_cacheMembers, ExtendMultiXactOffset_cacheMembers]

theorem GetNewMultiXactId_oldestVisibleLocal (s : MXState) (nmembers : Nat) :
    (GetNewMultiXactId s nmembers).2.2.oldestVisibleLocal = s.oldestVisibleLocal := by
  unfold GetNewMultiXactId
  simp [ExtendMultiXactMember_oldestVisibleLocal, ExtendMultiXactOffset_oldestVisibleLocal]

theorem MXOffsetToFlagsBitShift_eq (o : Nat) : MXOffsetToFlagsBitShift o = o % 8 * 8 := rfl

theorem MXOffsetToFlagGroup_eq (o : Nat) : MXOffsetToFlagGroup o = o / 8 := rfl

theorem writeMemberSlot_memberXids_ne (s : MXState) (o o' : Nat) (m : MultiXactMember)
    (h : o' ≠ o) : (writeMemberSlot s o m).memberXids o' = s.memberXids o' := by
  simp [writeMemberSlot, h]

theorem writeMemberSlot_flagField_ne (s : MXState) (o o' : Nat) (m : MultiXactMember)
    (h : o' ≠ o) (hst : m.status < 256) :
    flagGetStatus ((writeMemberSlot s o m).memberFlags (MXOffsetToFlagGroup o'))
      (MXOffsetToFlagsBitShift o') =
    flagGetStatus (s.memberFlags (MXOffsetToFlagGroup o')) (MXOffsetToFlagsBitShift o') := by
  by_cases hg : MXOffsetToFlagGroup o' = MXOffsetToFlagGroup o
  · have hmod : o % 8 ≠ o' % 8 := by
      rw [MXOffsetToFlagGroup_eq, MXOffsetToFlagGroup_eq] at hg
      omega
    simp only [writeMemberSlot, hg, if_pos rfl]
    rw [← hg, MXOffsetToFlagsBitShift_eq, MXOffsetToFlagsBitShift_eq]
    exact flagGetStatus_flagAssign_other _ _ _ _ hst
      (Nat.mod_lt _ (by norm_num)) (Nat.mod_lt _ (by norm_num)) hmod
  · simp [writeMemberSlot, hg]

theorem writeMemberSlot_memberXids_self (s : MXState) (o : Nat) (m : MultiXactMember)
    (hx : m.xid < xidMod) : (writeMemberSlot s o m).memberXids o = m.xid := by
  simp [writeMemberSlot, Nat.mod_eq_of_lt hx]

theorem writeMemberSlot_flagField_self (s : MXState) (o : Nat) (m : MultiXactMember)
    (hst : m.status < 256) :
    flagGetStatus ((writeMemberSlot s o m).memberFlags (MXOffsetToFlagGroup o))
      (MXOffsetToFlagsBitShift o) = m.status := by
  simp only [writeMemberSlot, if_pos rfl]
  rw [MXOffsetToFlagsBitShift_eq]
  exact flagGetStatus_flagAssign_self _ _ _ hst (Nat.mod_lt _ (by norm_num))

theorem writeMembersFrom_readback :
    ∀ (ms : List MultiXactMember) (s : MXState) (o : Nat),
      o + ms.length ≤ xidMod →
      (∀ m ∈ ms, m.status < 256 ∧ m.xid < xidMod) →
      (∀ j (hj : j < ms.length),
        (writeMembersFrom s o ms).memberXids (o + j) = (ms.get ⟨j, hj⟩).xid ∧
        flagGetStatus ((writeMembersFrom s o ms).memberFlags (MXOffsetToFlagGroup (o + j)))
          (MXOffsetToFlagsBitShift (o + j)) = (ms.get ⟨j, hj⟩).status) ∧
      (∀ slot, slot < o →
        (writeMembersFrom s o ms).memberXids slot = s.memberXids slot ∧
        flagGetStatus ((writeMembersFrom s o ms).memberFlags (MXOffsetToFlagGroup slot))
          (MXOffsetToFlagsBitShift slot) =
          flagGetStatus (s.memberFlags (MXOffsetToFlagGroup slot))
            (MXOffsetToFlagsBitShift slot)) := by
  intro ms
  induction ms with
  | nil =>
    intro s o _ _
    exact ⟨fun j hj => absurd hj (by simp), fun slot _ => ⟨rfl, rfl⟩⟩
  | cons m rest ih =>
    intro s o hb hok
    have hstm : m.status < 256 := (hok m (by simp)).1
    have hxm : m.xid < xidMod := (hok m (by simp)).2
    by_cases hwrap : o + 1 = xidMod
    · have hrest : rest = [] := by
        have := hb
        simp only [List.length_cons] at this
        have : rest.length = 0 := by omega
        exact List.length_eq_zero.mp this
      subst hrest
      constructor
      · intro j hj
        have hj0 : j = 0 := by simpa using hj
        subst hj0
        simp only [List.length_cons, writeMembersFrom, Nat.add_zero, List.get]
        exact ⟨writeMemberSlot_memberXids_self s o m hxm,
          writeMemberSlot_flagField_self s o m hstm⟩
      · intro slot hslot
        simp only [writeMembersFrom]
        exact ⟨writeMemberSlot_memberXids_ne s o slot m (by omega),
          writeMemberSlot_flagField_ne s o slot m (by omega) hstm⟩
    · have ho1 : (o + 1) % xidMod = o + 1 := Nat.mod_eq_of_lt (by
        simp only [List.length_cons] at hb
        omega)
      have hb' : (o + 1) + rest.length ≤ xidMod := by
        simp only [List.length_cons] at hb
        omega
      obtain ⟨ihread, ihpres⟩ := ih (writeMemberSlot s o m) (o + 1) hb'
        (fun x hx => hok x (by simp [hx]))
      constructor
      · intro j hj
        cases j with
        | zero =>
          have hpres := ihpres o (by omega)
          simp only [writeMembersFrom, ho1, Nat.add_zero, List.get]
          rw [hpres.1, hpres.2]
          exact ⟨writeMemberSlot_memberXids_self s o m hxm,
            writeMemberSlot_flagField_self s o m hstm⟩
        | succ j' =>
          have hj' : j' < rest.length := by simpa using hj
          have hr := ihread j' hj'
          simp only [writeMembersFrom, ho1]
          have harith : o + (j' + 1) = (o + 1) + j' := by omega
          rw [harith]
          exact hr
      · intro slot hslot
        have hpres := ihpres slot (by omega)
        simp only [writeMembersFrom, ho1]
        rw [hpres.1, hpres.2]
        exact ⟨writeMemberSlot_memberXids_ne s o slot m (by omega),
          writeMemberSlot_flagField_ne s o slot m (by omega) hstm⟩

theorem readMembers_of_readback :
    ∀ (ms : List MultiXactMember) (s : MXState) (o : Nat),
      o + ms.length ≤ xidMod →
      (∀ j (hj : j < ms.length),
        s.memberXids (o + j) = (ms.get ⟨j, hj⟩).xid ∧
        flagGetStatus (s.memberFlags (MXOffsetToFlagGroup (o + j)))
          (MXOffsetToFlagsBitShift (o + j)) = (ms.get ⟨j, hj⟩).status) →
      (∀ m ∈ ms, m.xid ≠ 0) →
      readMembers s o ms.length = ms := by
  intro ms
  induction ms with
  | nil => intro s o _ _ _; rfl
  | cons m rest ih =>
    intro s o hb hread hx
    have h0 := hread 0 (by simp)
    simp only [Nat.add_zero, List.get] at h0
    have hxid : s.memberXids o = m.xid := h0.1
    have hxm : m.xid ≠ 0 := hx m (by simp)
    simp only [List.length_cons, readMembers, hxid, hxm, if_neg hxm, h0.2]
    by_cases hwrap : o + 1 = xidMod
    · have hrest : rest = [] := by
        simp only [List.length_cons] at hb
        have : rest.length = 0 := by omega
        exact List.length_eq_zero.mp this
      subst hrest
      simp [readMembers]
    · have ho1 : (o + 1) % xidMod = o + 1 := Nat.mod_eq_of_lt (by
        simp only [List.length_cons] at hb
        omega)
      rw [ho1, ih s (o + 1) (by simp only [List.length_cons] at hb; omega)
        (fun j hj => by
          have := hread (j + 1) (by simpa using Nat.succ_lt_succ hj)
          have harith : o + (j + 1) = (o + 1) + j := by omega
          rw [harith] at this
          simpa using this)
        (fun x hxx => hx x (by simp [hxx]))]
      simp

theorem MultiXactIdSetOldestVisible_proj (s : MXState) :
    (MultiXactIdSetOldestVisible s).memberXids = s.memberXids ∧
    (MultiXactIdSetOldestVisible s).memberFlags = s.memberFlags ∧
    (MultiXactIdSetOldestVisible s).offsetsLog = s.offsetsLog ∧
    (MultiXactIdSetOldestVisible s).nextMXact = s.nextMXact ∧
    (MultiXactIdSetOldestVisible s).nextOffset = s.nextOffset ∧
    (MultiXactIdSetOldestVisible s).cache = s.cache ∧
    (MultiXactIdSetOldestVisible s).cacheMembers = s.cacheMembers ∧
    (MultiXactIdSetOldestVisible s).records = s.records := by
  unfold MultiXactIdSetOldestVisible
  split
  · exact ⟨rfl, rfl, rfl, rfl, rfl, rfl, rfl, rfl⟩
  · exact ⟨rfl, rfl, rfl, rfl, rfl, rfl, rfl, rfl⟩

theorem dropLast_cons_head {α : Type} (a : α) (l : List α) (h : l ≠ []) :
    (a :: l).dropLast = a :: l.dropLast := by
  cases l with
  | nil => exact absurd rfl h
  | cons b t => rfl

theorem mXactCachePut_head (cache : List mXactCacheEnt) (n multi : Nat)
    (ms : List MultiXactMember) (hn : n = cache.length) :
    ∃ tail, (mXactCachePut cache n multi ms).1 = (⟨multi, sortMembers ms⟩ : mXactCacheEnt) :: tail := by
  unfold mXactCachePut
  by_cases h : MAX_CACHE_ENTRIES ≤ n
  · rw [if_pos h]
    have hne : cache ≠ [] := by
      intro hnil
      subst hnil
      simp only [List.length_nil] at hn
      rw [hn] at h
      norm_num [MAX_CACHE_ENTRIES] at h
    exact ⟨cache.dropLast, dropLast_cons_head _ _ hne⟩
  · rw [if_neg h]
    exact ⟨cache, rfl⟩

theorem createFromMembers_miss (s : MXState) (ms : List MultiXactMember)
    (hmiss : ∀ e ∈ s.cache, e.members ≠ sortMembers ms)
    (hupd : countUpdates ms ≤ 1)
    (hcm : s.cacheMembers = s.cache.length)
    (hb : s.nextOffset + ms.length ≤ xidMod)
    (hok : ∀ m ∈ ms, m.status < 256 ∧ m.xid < xidMod) :
    MultiXactIdCreateFromMembers s ms = Except.ok (createdId s ms, createdState s ms) ∧
    createdId s ms = allocMulti s ∧
    (∃ tail, (createdState s ms).cache =
      (⟨allocMulti s, sortMembers ms⟩ : mXactCacheEnt) :: tail) ∧
    (createdState s ms).nextMXact = (allocMulti s + 1) % xidMod ∧
    (createdState s ms).nextOffset = (s.nextOffset + ms.length) % xidMod ∧
    (createdState s ms).offsetsLog (allocMulti s) = s.nextOffset ∧
    (createdState s ms).oldestVisibleLocal = s.oldestVisibleLocal ∧
    (∀ j (hj : j < (sortMembers ms).length),
      (createdState s ms).memberXids (s.nextOffset + j) = ((sortMembers ms).get ⟨j, hj⟩).xid ∧
      flagGetStatus
        ((createdState s ms).memberFlags (MXOffsetToFlagGroup (s.nextOffset + j)))
        (MXOffsetToFlagsBitShift (s.nextOffset + j)) =
        ((sortMembers ms).get ⟨j, hj⟩).status) := by
  have hlookup :
      cacheLookupMove (fun e => decide (e.members = sortMembers ms)) s.cache = none :=
    cacheLookupMove_eq_none fun e he => by
      simpa using hmiss e he
  have hset : mXactCacheGetBySet s.cache ms = (none, s.cache) := by
    unfold mXactCacheGetBySet
    simp only [hlookup]
  set A := (GetNewMultiXactId s ms.length).1 with hA
  set off := (GetNewMultiXactId s ms.length).2.1 with hoff
  set s1 := (GetNewMultiXactId s ms.length).2.2 with hs1
  set s2 : MXState :=
    { s1 with records := s1.records ++ [WalRec.createId A off (sortMembers ms)] } with hs2
  set s3 := RecordNewMultiXact s2 A off (sortMembers ms) with hs3
  set put := mXactCachePut s3.cache s3.cacheMembers A (sortMembers ms) with hput
  have hcreate : MultiXactIdCreateFromMembers s ms =
      Except.ok (A, { s3 with cache := put.1, cacheMembers := put.2 }) := by
    unfold MultiXactIdCreateFromMembers
    simp only [hset]
    rw [if_neg (show ¬ 2 ≤ countUpdates ms from by omega)]
  have hid : createdId s ms = A := by
    unfold createdId
    rw [hcreate]
  have hst : createdState s ms = { s3 with cache := put.1, cacheMembers := put.2 } := by
    unfold createdState
    rw [hcreate]
  have hAval : A = allocMulti s := by rw [hA, GetNewMultiXactId_fst]
  have hoffval : off = s.nextOffset := by rw [hoff, GetNewMultiXactId_offset]
  have hrecord : s3 = writeMembersFrom
      { s2 with offsetsLog := fun m => if m = A then off else s2.offsetsLog m }
      off (sortMembers ms) := by
    rw [hs3]
    unfold RecordNewMultiXact
    rfl
  have hs3cache : s3.cache = s.cache := by
    rw [hrecord, writeMembersFrom_cache]
    rw [show ({ s2 with
      offsetsLog := fun m => if m = A then off else s2.offsetsLog m } : MXState).cache =
        s2.cache from rfl]
    rw [show s2.cache = s1.cache from rfl, hs1, GetNewMultiXactId_cache]
  have hs3cm : s3.cacheMembers = s.cacheMembers := by
    rw [hrecord, writeMembersFrom_cacheMembers]
    rw [show ({ s2 with
      offsetsLog := fun m => if m = A then off else s2.offsetsLog m } : MXState).cacheMembers =
        s2.cacheMembers from rfl]
    rw [show s2.cacheMembers = s1.cacheMembers from rfl, hs1, GetNewMultiXactId_cacheMembers]
  have hs3next : s3.nextMXact = (allocMulti s + 1) % xidMod := by
    rw [hrecord, writeMembersFrom_nextMXact]
    rw [show ({ s2 with
      offsetsLog := fun m => if m = A then off else s2.offsetsLog m } : MXState).nextMXact =
        s2.nextMXact from rfl]
    rw [show s2.nextMXact = s1.nextMXact from rfl, hs1, GetNewMultiXactId_nextMXact]
  have hs3noff : s3.nextOffset = (s.nextOffset + ms.length) % xidMod := by
    rw [hrecord, writeMembersFrom_nextOffset]
    rw [show ({ s2 with
      offsetsLog := fun m => if m = A then off else s2.offsetsLog m } : MXState).nextOffset =
        s2.nextOffset from rfl]
    rw [show s2.nextOffset = s1.nextOffset from rfl, hs1, GetNewMultiXactId_nextOffset]
  have hs3olog : s3.offsetsLog A = off := by
    rw [hrecord, writeMembersFrom_offsetsLog]
    rw [show ({ s2 with
      offsetsLog := fun m => if m = A then off else s2.offsetsLog m } : MXState).offsetsLog =
        fun m => if m = A then off else s2.offsetsLog m from rfl]
    simp
  have hs3ovl : s3.oldestVisibleLocal = s.oldestVisibleLocal := by
    rw [hrecord, writeMembersFrom_oldestVisibleLocal]
    rw [show ({ s2 with
      offsetsLog := fun m => if m = A then off else s2.offsetsLog m } :
        MXState).oldestVisibleLocal = s2.oldestVisibleLocal from rfl]
    rw [show s2.oldestVisibleLocal = s1.oldestVisibleLocal from rfl, hs1,
      GetNewMultiXactId_oldestVisibleLocal]
  have hsortlen : (sortMembers ms).length = ms.length := sortMembers_length ms
  have hb' : off + (sortMembers ms).length ≤ xidMod := by
    rw [hoffval, hsortlen]
    exact hb
  have hok' : ∀ m ∈ sortMembers ms, m.status < 256 ∧ m.xid < xidMod := fun m hm =>
    hok m (sortMembers_mem hm)
  have hreadback := (writeMembersFrom_readback (sortMembers ms)
    { s2 with offsetsLog := fun m => if m = A then off else s2.offsetsLog m }
    off hb' hok').1
  refine ⟨hcreate.trans (by rw [hid, hst]), hid.trans hAval, ?_, ?_, ?_, ?_, ?_, ?_⟩
  · rw [hst]
    rw [show ({ s3 with cache := put.1, cacheMembers := put.2 } : MXState).cache = put.1
      from rfl]
    rw [hput, hs3cache, hs3cm, hcm]
    obtain ⟨tail, htail⟩ := mXactCachePut_head s.cache s.cache.length A (sortMembers ms) rfl
    rw [htail, sortMembers_idem, hAval]
    exact ⟨tail, rfl⟩
  · rw [hst]
    rw [show ({ s3 with cache := put.1, cacheMembers := put.2 } : MXState).nextMXact =
      s3.nextMXact from rfl]
    exact hs3next
  · rw [hst]
    rw [show ({ s3 with cache := put.1, cacheMembers := put.2 } : MXState).nextOffset =
      s3.nextOffset from rfl]
    exact hs3noff
  · rw [hst]
    rw [show ({ s3 with cache := put.1, cacheMembers := put.2 } : MXState).offsetsLog =
      s3.offsetsLog from rfl]
    rw [← hAval, hs3olog, hoffval]
  · rw [hst]
    rw [show ({ s3 with cache := put.1, cacheMembers := put.2 } : MXState).oldestVisibleLocal =
      s3.oldestVisibleLocal from rfl]
    exact hs3ovl
  · intro j hj
    have hr := hreadback j hj
    rw [hst]
    rw [show ({ s3 with cache := put.1, cacheMembers := put.2 } : MXState).memberXids =
      s3.memberXids from rfl]
    rw [show ({ s3 with cache := put.1, cacheMembers := put.2 } : MXState).memberFlags =
      s3.memberFlags from rfl]
    rw [hrecord, ← hoffval]
    exact hr

theorem resolve_cache_head (s : MXState) (multi : Nat) (ms : List MultiXactMember)
    (tail : List mXactCacheEnt) (hc : s.cache = ⟨multi, ms⟩ :: tail) (hm : multi ≠ 0) :
    GetMultiXactIdMembers s multi false false = (GetMembersResult.found ms, s) := by
  have hbyid : mXactCacheGetById s.cache multi = (some ms, s.cache) := by
    rw [hc]
    unfold mXactCacheGetById cacheLookupMove
    rw [if_pos (by simp)]
  unfold GetMultiXactIdMembers
  rw [if_neg (by simp [InvalidMultiXactId, hm])]
  simp only [hbyid]

theorem sub64_add_cancel (b n : Nat) (hlt : b + n < xidMod) : sub64 (b + n) b = n := by
  unfold sub64
  rw [Nat.mod_eq_of_lt hlt, Nat.mod_eq_of_lt (show b < xidMod by omega)]
  rw [show b + n + (xidMod - b) = n + xidMod by
    have : xidMod = 2 ^ 64 := rfl
    omega]
  rw [Nat.add_mod_right]
  exact Nat.mod_eq_of_lt (by omega)

theorem resolve_corner1 (s : MXState) (multi n : Nat)
    (hm : multi ≠ 0)
    (hcache : s.cache = [])
    (hnext : s.nextMXact = multi + 1)
    (hw : multi + 1 < xidMod)
    (hoff : s.nextOffset = s.offsetsLog multi + n)
    (hnw : s.offsetsLog multi + n < xidMod) :
    (GetMultiXactIdMembers s multi false false).1 =
      GetMembersResult.found
        (readMembers (MultiXactIdSetOldestVisible s) (s.offsetsLog multi) n) := by
  obtain ⟨hp1, hp2, hp3, hp4, hp5, hp6, hp7, hp8⟩ := MultiXactIdSetOldestVisible_proj s
  have hbyid : mXactCacheGetById s.cache multi = (none, s.cache) := by
    rw [hcache]
    rfl
  unfold GetMultiXactIdMembers
  rw [if_neg (by simp [InvalidMultiXactId, hm])]
  simp only [hbyid]
  rw [if_neg (by simp)]
  rw [if_pos (show (MultiXactIdSetOldestVisible s).nextMXact = (multi + 1) % xidMod by
    rw [hp4, hnext, Nat.mod_eq_of_lt hw])]
  have hsub : sub64 (MultiXactIdSetOldestVisible s).nextOffset
      ((MultiXactIdSetOldestVisible s).offsetsLog multi) = n := by
    rw [hp5, hp3, hoff]
    exact sub64_add_cancel _ _ hnw
  rw [hsub, hp3]

theorem GetMultiXactIdMembers_preserves (s : MXState) (multi : Nat) (pg ol : Bool) :
    (GetMultiXactIdMembers s multi pg ol).2.nextMXact = s.nextMXact ∧
    (GetMultiXactIdMembers s multi pg ol).2.nextOffset = s.nextOffset ∧
    (GetMultiXactIdMembers s multi pg ol).2.records = s.records ∧
    (GetMultiXactIdMembers s multi pg ol).2.offsetsLog = s.offsetsLog ∧
    (GetMultiXactIdMembers s multi pg ol).2.memberXids = s.memberXids ∧
    (GetMultiXactIdMembers s multi pg ol).2.memberFlags = s.memberFlags := by
  obtain ⟨h1, h2, h3, h4, h5, h6, h7, h8⟩ := MultiXactIdSetOldestVisible_proj s
  unfold GetMultiXactIdMembers
  split
  · exact ⟨rfl, rfl, rfl, rfl, rfl, rfl⟩
  · split
    · exact ⟨rfl, rfl, rfl, rfl, rfl, rfl⟩
    · dsimp only
      split
      · exact ⟨h4, h5, h8, h3, h1, h2⟩
      · split
        · exact ⟨h4, h5, h8, h3, h1, h2⟩
        · split
          · exact ⟨h4, h5, h8, h3, h1, h2⟩
          · exact ⟨h4, h5, h8, h3, h1, h2⟩

theorem allocMulti_ne_zero (s : MXState) : allocMulti s ≠ 0 := by
  unfold allocMulti FirstMultiXactId
  split <;> omega

/-- C1: for every valid member array (pairwise distinct pairs represented
by arbitrary lists of 64-bit members with nonzero xids and at most one
update-status member), creating a multixact from it and then resolving the
returned id yields exactly the member set that went in, independent of the
input order: the resolved array is the sorted input, both when the resolve
is answered from the cache the create populated and when the cache has
been discarded at transaction end and the resolve reads the offsets and
members SLRUs, and the sorted array is a permutation of the input.  The
hypotheses put the state on the allocation path (the sorted set is not
already cached) and away from counter wraparound. -/
theorem create_then_resolve_same_set (s : MXState) (ms : List MultiXactMember)
    (hvalid : ∀ m ∈ ms, m.xid ≠ 0 ∧ m.xid < xidMod ∧ m.status < 256)
    (hupd : countUpdates ms ≤ 1)
    (hmiss : ∀ e ∈ s.cache, e.members ≠ sortMembers ms)
    (hcm : s.cacheMembers = s.cache.length)
    (hnm : s.nextMXact + 1 < xidMod)
    (hno : s.nextOffset + ms.length < xidMod) :
    MultiXactIdCreateFromMembers s ms = Except.ok (createdId s ms, createdState s ms) ∧
    resolveResult (createdState s ms) (createdId s ms) =
      GetMembersResult.found (sortMembers ms) ∧
    resolveResult (AtEOXact_MultiXact (createdState s ms)) (createdId s ms) =
      GetMembersResult.found (sortMembers ms) ∧
    (sortMembers ms).Perm ms := by
  obtain ⟨hc1, hc2, hcache, hnx, hnoff, holog, hovl, hread⟩ :=
    createFromMembers_miss s ms hmiss hupd hcm (Nat.le_of_lt hno)
      (fun m hm => ⟨(hvalid m hm).2.2, (hvalid m hm).2.1⟩)
  obtain ⟨tail, htail⟩ := hcache
  have hA1 : allocMulti s ≠ 0 := allocMulti_ne_zero s
  have hAlt : allocMulti s + 1 < xidMod := by
    unfold allocMulti
    split
    · norm_num [xidMod, FirstMultiXactId]
    · exact hnm
  refine ⟨hc1, ?_, ?_, sortMembers_perm ms⟩
  · unfold resolveResult
    rw [hc2,
      resolve_cache_head (createdState s ms) (allocMulti s) (sortMembers ms) tail htail hA1]
  · have htc : (AtEOXact_MultiXact (createdState s ms)).cache = [] := rfl
    have htn : (AtEOXact_MultiXact (createdState s ms)).nextMXact = allocMulti s + 1 := by
      rw [show (AtEOXact_MultiXact (createdState s ms)).nextMXact =
        (createdState s ms).nextMXact from rfl, hnx]
      exact Nat.mod_eq_of_lt hAlt
    have hto : (AtEOXact_MultiXact (createdState s ms)).offsetsLog (allocMulti s) =
        s.nextOffset := by
      rw [show (AtEOXact_MultiXact (createdState s ms)).offsetsLog =
        (createdState s ms).offsetsLog from rfl]
      exact holog
    have htoff : (AtEOXact_MultiXact (createdState s ms)).nextOffset =
        (AtEOXact_MultiXact (createdState s ms)).offsetsLog (allocMulti s) + ms.length := by
      rw [hto, show (AtEOXact_MultiXact (createdState s ms)).nextOffset =
        (createdState s ms).nextOffset from rfl, hnoff]
      exact Nat.mod_eq_of_lt hno
    have hres := resolve_corner1 (AtEOXact_MultiXact (createdState s ms)) (allocMulti s)
      ms.length hA1 htc htn hAlt htoff (by rw [hto]; exact hno)
    obtain ⟨ht1, ht2, _, _, _, _, _, _⟩ :=
      MultiXactIdSetOldestVisible_proj (AtEOXact_MultiXact (createdState s ms))
    have hrm : readMembers
        (MultiXactIdSetOldestVisible (AtEOXact_MultiXact (createdState s ms)))
        s.nextOffset ms.length = sortMembers ms := by
      rw [← sortMembers_length ms]
      apply readMembers_of_readback (sortMembers ms) _ s.nextOffset
      · rw [sortMembers_length]
        exact Nat.le_of_lt hno
      · intro j hj
        rw [ht1, ht2,
          show (AtEOXact_MultiXact (createdState s ms)).memberXids =
            (createdState s ms).memberXids from rfl,
          show (AtEOXact_MultiXact (createdState s ms)).memberFlags =
            (createdState s ms).memberFlags from rfl]
        exact hread j hj
      · intro m hm
        exact (hvalid m (sortMembers_mem hm)).1
    unfold resolveResult
    rw [hc2, hres, hto, hrm]

theorem mXactCacheGetBySet_some {cache : List mXactCacheEnt} {ms : List MultiXactMember}
    {m : Nat} {cache' : List mXactCacheEnt}
    (h : mXactCacheGetBySet cache ms = (some m, cache')) :
    ∃ f tail, cache' = f :: tail ∧ mXactCacheEnt.multi f = m ∧
      mXactCacheEnt.members f = sortMembers ms := by
  unfold mXactCacheGetBySet at h
  cases hl : cacheLookupMove (fun e => decide (e.members = sortMembers ms)) cache with
  | none =>
    rw [hl] at h
    simp at h
  | some pr =>
    obtain ⟨f, rest⟩ := pr
    rw [hl] at h
    simp only [Prod.mk.injEq, Option.some.injEq] at h
    refine ⟨f, rest, h.2.symm, h.1, ?_⟩
    have := cacheLookupMove_found hl
    simpa using this

theorem mXactCacheGetBySet_none {cache : List mXactCacheEnt} {ms : List MultiXactMember}
    {cache' : List mXactCacheEnt}
    (h : mXactCacheGetBySet cache ms = (none, cache')) : cache' = cache := by
  unfold mXactCacheGetBySet at h
  cases hl : cacheLookupMove (fun e => decide (e.members = sortMembers ms)) cache with
  | none =>
    rw [hl] at h
    simpa using h.symm
  | some pr =>
    obtain ⟨f, rest⟩ := pr
    rw [hl] at h
    simp at h

theorem createFromMembers_cache_head (s : MXState) (ms : List MultiXactMember)
    (e : mXactCacheEnt) (tail : List mXactCacheEnt)
    (hc : s.cache = e :: tail) (he : e.members = sortMembers ms) :
    MultiXactIdCreateFromMembers s ms = Except.ok (e.multi, s) := by
  have hl : cacheLookupMove (fun f => decide (f.members = sortMembers ms)) s.cache =
      some (e, tail) := by
    rw [hc]
    unfold cacheLookupMove
    rw [if_pos (by simp [he])]
  have hbyset : mXactCacheGetBySet s.cache ms = (some e.multi, s.cache) := by
    unfold mXactCacheGetBySet
    rw [hl, hc]
  unfold MultiXactIdCreateFromMembers
  simp only [hbyset]

theorem createFromMembers_miss_cache (s : MXState) (ms : List MultiXactMember)
    (hlook : mXactCacheGetBySet s.cache ms = (none, s.cache))
    (hupd : ¬ 2 ≤ countUpdates ms)
    (hcm : s.cacheMembers = s.cache.length) :
    MultiXactIdCreateFromMembers s ms = Except.ok (allocMulti s, createdState s ms) ∧
    ∃ tail, (createdState s ms).cache =
      (⟨allocMulti s, sortMembers ms⟩ : mXactCacheEnt) :: tail := by
  set A := (GetNewMultiXactId s ms.length).1 with hA
  set off := (GetNewMultiXactId s ms.length).2.1 with hoff
  set s1 := (GetNewMultiXactId s ms.length).2.2 with hs1
  set s2 : MXState :=
    { s1 with records := s1.records ++ [WalRec.createId A off (sortMembers ms)] } with hs2
  set s3 := RecordNewMultiXact s2 A off (sortMembers ms) with hs3
  set put := mXactCachePut s3.cache s3.cacheMembers A (sortMembers ms) with hput
  have hcreate : MultiXactIdCreateFromMembers s ms =
      Except.ok (A, { s3 with cache := put.1, cacheMembers := put.2 }) := by
    unfold MultiXactIdCreateFromMembers
    simp only [hlook]
    rw [if_neg hupd]
  have hst : createdState s ms = { s3 with cache := put.1, cacheMembers := put.2 } := by
    unfold createdState
    rw [hcreate]
  have hAval : A = allocMulti s := by rw [hA, GetNewMultiXactId_fst]
  have hrecord : s3 = writeMembersFrom
      { s2 with offsetsLog := fun m => if m = A then off else s2.offsetsLog m }
      off (sortMembers ms) := by
    rw [hs3]
    unfold RecordNewMultiXact
    rfl
  have hs3cache : s3.cache = s.cache := by
    rw [hrecord, writeMembersFrom_cache]
    rw [show ({ s2 with
      offsetsLog := fun m => if m = A then off else s2.offsetsLog m } : MXState).cache =
        s2.cache from rfl]
    rw [show s2.cache = s1.cache from rfl, hs1, GetNewMultiXactId_cache]
  have hs3cm : s3.cacheMembers = s.cacheMembers := by
    rw [hrecord, writeMembersFrom_cacheMembers]
    rw [show ({ s2 with
      offsetsLog := fun m => if m = A then off else s2.offsetsLog m } : MXState).cacheMembers =
        s2.cacheMembers from rfl]
    rw [show s2.cacheMembers = s1.cacheMembers from rfl, hs1, GetNewMultiXactId_cacheMembers]
  constructor
  · rw [hcreate, hAval, hst]
  · rw [hst]
    rw [show ({ s3 with cache := put.1, cacheMembers := put.2 } : MXState).cache = put.1
      from rfl]
    rw [hput, hs3cache, hs3cm, hcm]
    obtain ⟨tail, htail⟩ := mXactCachePut_head s.cache s.cache.length A (sortMembers ms) rfl
    rw [htail, sortMembers_idem, hAval]
    exact ⟨tail, rfl⟩

/-- C3: within one cache lifetime, creating a multixact twice from the
same member set, the second time in any element order, returns the same
multixact id both times and the second call leaves the state entirely
unchanged: no WAL record is written, no id or offset is allocated, and
even the cache is untouched, because the content lookup on the sorted
member set hits the entry at the head of the cache and returns the cached
id.  The hypothesis ties the cache entry counter to the cache length (an
invariant of the program). -/
theorem createFromMembers_idempotent (s : MXState) (ms₁ ms₂ : List MultiXactMember)
    (r1 : Nat) (s1 : MXState)
    (hcm : s.cacheMembers = s.cache.length)
    (hperm : ms₂.Perm ms₁)
    (h : MultiXactIdCreateFromMembers s ms₁ = Except.ok (r1, s1)) :
    MultiXactIdCreateFromMembers s1 ms₂ = Except.ok (r1, s1) := by
  have hsort : sortMembers ms₂ = sortMembers ms₁ := sortMembers_eq_of_perm hperm
  cases hfst : mXactCacheGetBySet s.cache ms₁ with
  | mk o cache' =>
    cases o with
    | some m =>
      obtain ⟨f, tail, hcache', hfm, hfmem⟩ := mXactCacheGetBySet_some hfst
      have hmain : MultiXactIdCreateFromMembers s ms₁ =
          Except.ok (m, { s with cache := cache' }) := by
        unfold MultiXactIdCreateFromMembers
        simp only [hfst]
      rw [hmain] at h
      simp only [Except.ok.injEq, Prod.mk.injEq] at h
      obtain ⟨rfl, rfl⟩ := h
      subst hcache'
      have hres := createFromMembers_cache_head { s with cache := f :: tail } ms₂ f tail rfl
        (by rw [hsort]; exact hfmem)
      rw [hfm] at hres
      exact hres
    | none =>
      have hc'eq : cache' = s.cache := mXactCacheGetBySet_none hfst
      subst hc'eq
      by_cases hupd : 2 ≤ countUpdates ms₁
      · have herr : MultiXactIdCreateFromMembers s ms₁ =
            Except.error MXError.duplicateUpdateMember := by
          unfold MultiXactIdCreateFromMembers
          simp only [hfst]
          rw [if_pos hupd]
        rw [herr] at h
        exact absurd h (by simp)
      · obtain ⟨hmain, tail, htail⟩ := createFromMembers_miss_cache s ms₁ hfst hupd hcm
        rw [hmain] at h
        simp only [Except.ok.injEq, Prod.mk.injEq] at h
        obtain ⟨rfl, rfl⟩ := h
        have hres := createFromMembers_cache_head (createdState s ms₁) ms₂
          ⟨allocMulti s, sortMembers ms₁⟩ tail htail (by rw [hsort])
        simpa using hres

/-- C4: expanding a multixact with a (xid, status) pair that its resolved
membership already contains returns the existing id unchanged and
allocates nothing: nextMXact, nextOffset and the emitted WAL records are
those of the input state (only the backend-local cache may have been
touched by the resolution). -/
theorem expand_existing_member_idempotent (inProgress didCommit : Nat → Bool)
    (s : MXState) (multi xid status : Nat) (ms : List MultiXactMember)
    (hres : resolveResult s multi = GetMembersResult.found ms)
    (hmem : (ms.any fun m => decide (m.xid = xid ∧ m.status = status)) = true) :
    MultiXactIdExpand inProgress didCommit s multi xid status =
      (ExpandResult.ok multi, resolveState s multi) ∧
    (resolveState s multi).nextMXact = s.nextMXact ∧
    (resolveState s multi).nextOffset = s.nextOffset ∧
    (resolveState s multi).records = s.records := by
  have hpair : GetMultiXactIdMembers s multi false false =
      (GetMembersResult.found ms, resolveState s multi) := by
    rw [← hres]
    rfl
  obtain ⟨hp1, hp2, hp3, _, _, _⟩ := GetMultiXactIdMembers_preserves s multi false false
  refine ⟨?_, hp1, hp2, hp3⟩
  unfold MultiXactIdExpand
  simp only [hpair]
  rw [if_pos hmem]

theorem sortMembers_singleton (m : MultiXactMember) : sortMembers [m] = [m] := rfl

/-- C5: when the resolution of the existing multixact reports no members,
MultiXactIdExpand surfaces no error to its caller: it builds a brand new
singleton multixact holding exactly the (xid, status) pair, returns its
(freshly allocated) id, and resolving that id yields exactly the singleton
member list.  The hypotheses put the post-resolution state on the
allocation path and away from counter wraparound. -/
theorem expand_no_members_creates_singleton (inProgress didCommit : Nat → Bool)
    (s : MXState) (multi xid status : Nat)
    (hres : resolveResult s multi = GetMembersResult.noMembers)
    (hxw : xid < xidMod) (hst : status < 256)
    (hmiss : ∀ e ∈ (resolveState s multi).cache, e.members ≠ [⟨xid, status⟩])
    (hcm : (resolveState s multi).cacheMembers = (resolveState s multi).cache.length)
    (hno : (resolveState s multi).nextOffset + 1 ≤ xidMod) :
    MultiXactIdExpand inProgress didCommit s multi xid status =
      (ExpandResult.ok (allocMulti (resolveState s multi)),
       createdState (resolveState s multi) [⟨xid, status⟩]) ∧
    resolveResult (createdState (resolveState s multi) [⟨xid, status⟩])
      (allocMulti (resolveState s multi)) =
      GetMembersResult.found [⟨xid, status⟩] := by
  have hpair : GetMultiXactIdMembers s multi false false =
      (GetMembersResult.noMembers, resolveState s multi) := by
    rw [← hres]
    rfl
  have hupd : countUpdates [(⟨xid, status⟩ : MultiXactMember)] ≤ 1 := by
    unfold countUpdates
    exact List.length_filter_le _ _
  have hmiss' : ∀ e ∈ (resolveState s multi).cache,
      e.members ≠ sortMembers [⟨xid, status⟩] := by
    rw [sortMembers_singleton]
    exact hmiss
  obtain ⟨hc1, hc2, hcache, _, _, _, _, _⟩ :=
    createFromMembers_miss (resolveState s multi) [⟨xid, status⟩] hmiss' hupd hcm
      (by simpa using hno) (by simp [hxw, hst])
  obtain ⟨tail, htail⟩ := hcache
  rw [sortMembers_singleton] at htail
  constructor
  · unfold MultiXactIdExpand
    simp only [hpair]
    unfold expandResultOfCreate
    rw [hc1, hc2]
  · unfold resolveResult
    rw [resolve_cache_head (createdState (resolveState s multi) [⟨xid, status⟩])
      (allocMulti (resolveState s multi)) [⟨xid, status⟩] tail htail
      (allocMulti_ne_zero (resolveState s multi))]

/-- C6: when the added pair is not already a member, the member-rebuilding
loop of MultiXactIdExpand produces exactly the still-interesting old
members (those whose xid is in progress, or which have an update status
and committed: every dead read-only member is dropped) in their original
order followed by the added (xid, status) pair, and MultiXactIdExpand
delegates to MultiXactIdCreateFromMembers on exactly that list. -/
theorem expand_filters_dead_members (inProgress didCommit : Nat → Bool)
    (s : MXState) (multi xid status : Nat) (ms : List MultiXactMember)
    (hres : resolveResult s multi = GetMembersResult.found ms)
    (hnot : (ms.any fun m => decide (m.xid = xid ∧ m.status = status)) = false) :
    expandNewMembers inProgress didCommit ms xid status =
      ms.filter (expandKeep inProgress didCommit) ++ [⟨xid, status⟩] ∧
    MultiXactIdExpand inProgress didCommit s multi xid status =
      expandResultOfCreate
        (MultiXactIdCreateFromMembers (resolveState s multi)
          (ms.filter (expandKeep inProgress didCommit) ++ [⟨xid, status⟩]))
        (resolveState s multi) := by
  have hfold : ∀ (l acc : List MultiXactMember),
      l.foldl (fun acc m => if expandKeep inProgress didCommit m then acc ++ [m] else acc)
        acc = acc ++ l.filter (expandKeep inProgress didCommit) := by
    intro l
    induction l with
    | nil => intro acc; simp
    | cons x t ih =>
      intro acc
      by_cases hx : expandKeep inProgress didCommit x = true
      · simp [List.foldl, hx, ih]
      · simp [List.foldl, hx, ih]
  have h1 : expandNewMembers inProgress didCommit ms xid status =
      ms.filter (expandKeep inProgress didCommit) ++ [⟨xid, status⟩] := by
    unfold expandNewMembers
    rw [hfold]
    simp
  have hpair : GetMultiXactIdMembers s multi false false =
      (GetMembersResult.found ms, resolveState s multi) := by
    rw [← hres]
    rfl
  refine ⟨h1, ?_⟩
  unfold MultiXactIdExpand
  simp only [hpair]
  rw [if_neg (show ¬ ((ms.any fun m => decide (m.xid = xid ∧ m.status = status)) = true) by
    rw [hnot]
    simp), h1]

theorem allocSequence_chain (ns : List Nat) :
    ∀ (s : MXState),
      1 ≤ s.nextMXact → s.nextMXact + ns.length ≤ xidMod →
      (∀ n ∈ ns, 1 ≤ n) → s.nextOffset + ns.sum ≤ xidMod →
      List.Chain' (fun a b => a < b) ((allocSequence s ns).1.map Prod.fst) ∧
      List.Chain' (fun a b => a < b) ((allocSequence s ns).1.map Prod.snd) ∧
      (ns ≠ [] →
        ((allocSequence s ns).1.map Prod.fst).head? = some s.nextMXact ∧
        ((allocSequence s ns).1.map Prod.snd).head? = some s.nextOffset) := by
  induction ns with
  | nil =>
    intro s _ _ _ _
    exact ⟨List.chain'_nil, List.chain'_nil, fun h => absurd rfl h⟩
  | cons n rest ih =>
    intro s h1 h2 h3 h4
    have hA : allocMulti s = s.nextMXact := by
      unfold allocMulti FirstMultiXactId
      rw [if_neg (by omega)]
    have hlist : (allocSequence s (n :: rest)).1 =
        ((GetNewMultiXactId s n).1, (GetNewMultiXactId s n).2.1) ::
          (allocSequence (GetNewMultiXactId s n).2.2 rest).1 := by
      simp only [allocSequence]
    have hid : (GetNewMultiXactId s n).1 = s.nextMXact := by
      rw [GetNewMultiXactId_fst, hA]
    have hoff : (GetNewMultiXactId s n).2.1 = s.nextOffset := GetNewMultiXactId_offset s n
    cases rest with
    | nil =>
      rw [hlist]
      simp only [allocSequence, List.map_cons, List.map_nil]
      exact ⟨List.chain'_singleton _, List.chain'_singleton _,
        fun _ => ⟨by rw [hid]; rfl, by rw [hoff]; rfl⟩⟩
    | cons r rs =>
      have hwrapm : s.nextMXact + 1 < xidMod := by
        simp only [List.length_cons] at h2
        omega
      have hrsum : 1 ≤ r + rs.sum := by
        have := h3 r (by simp)
        omega
      have hwrapo : s.nextOffset + n < xidMod := by
        simp only [List.sum_cons] at h4
        omega
      have hs'm : (GetNewMultiXactId s n).2.2.nextMXact = s.nextMXact + 1 := by
        rw [GetNewMultiXactId_nextMXact, hA]
        exact Nat.mod_eq_of_lt hwrapm
      have hs'o : (GetNewMultiXactId s n).2.2.nextOffset = s.nextOffset + n := by
        rw [GetNewMultiXactId_nextOffset]
        exact Nat.mod_eq_of_lt hwrapo
      obtain ⟨ih1, ih2, ih3⟩ := ih (GetNewMultiXactId s n).2.2
        (by omega)
        (by
          rw [hs'm]
          simp only [List.length_cons] at h2 ⊢
          omega)
        (fun x hx => h3 x (by simp [hx]))
        (by
          rw [hs'o]
          simp only [List.sum_cons] at h4 ⊢
          omega)
      obtain ⟨ihh1, ihh2⟩ := ih3 (by simp)
      rw [hlist]
      simp only [List.map_cons]
      refine ⟨List.chain'_cons'.mpr ⟨?_, ih1⟩, List.chain'_cons'.mpr ⟨?_, ih2⟩,
        fun _ => ⟨by rw [hid]; rfl, by rw [hoff]; rfl⟩⟩
      · intro y hy
        rw [ihh1] at hy
        simp only [Option.mem_def, Option.some.injEq] at hy
        rw [hid, ← hy, hs'm]
        omega
      · intro y hy
        rw [ihh2] at hy
        simp only [Option.mem_def, Option.some.injEq] at hy
        rw [hoff, ← hy, hs'o]
        have := h3 n (by simp)
        omega

/-- C7: across any serial sequence of allocations by GetNewMultiXactId
(the id and member-space reservation step of every Create-group call that
actually allocates), both the assigned multixact ids and the assigned
member-log starting offsets are strictly increasing, as long as neither
counter reaches its explicit 64-bit wraparound within the sequence and
every call reserves at least one member slot. -/
theorem getNewMultiXactId_strictly_increasing (s : MXState) (ns : List Nat)
    (h1 : 1 ≤ s.nextMXact) (h2 : s.nextMXact + ns.length ≤ xidMod)
    (h3 : ∀ n ∈ ns, 1 ≤ n) (h4 : s.nextOffset + ns.sum ≤ xidMod) :
    List.Chain' (fun a b => a < b) ((allocSequence s ns).1.map Prod.fst) ∧
    List.Chain' (fun a b => a < b) ((allocSequence s ns).1.map Prod.snd) :=
  ⟨(allocSequence_chain ns s h1 h2 h3 h4).1, (allocSequence_chain ns s h1 h2 h3 h4).2.1⟩

/-- C10: a TruncateMultiXact call whose requested new floor does not
advance past the recorded oldest multixact id is a complete no-op: the
shared state (including oldest-id, next-id, next-offset and the WAL record
list) is returned unchanged, no truncation is performed, no members
segment is deleted and no offsets truncation is issued. -/
theorem truncate_noop_when_floor_not_advanced (env : TruncateEnv) (s : MXState)
    (newOldestMulti newOldestMultiDB : Nat)
    (h : MultiXactIdPrecedesOrEquals newOldestMulti s.oldestMultiXactId = true) :
    TruncateMultiXact env s newOldestMulti newOldestMultiDB =
      ⟨s, false, [], none⟩ := by
  simp only [TruncateMultiXact]
  rw [if_pos h]

/-- State whose recorded retention floor is multixact 10 and whose
allocator stands at next id 20: resolving id 5 (before the floor) or id
25 (at or after the allocator) should, per the comment block inside
GetMultiXactIdMembers, raise the two range errors. -/
def outOfRangeState : MXState :=
  { initState with oldestMultiXactId := 10, nextMXact := 20, nextOffset := 50 }

/-- C2: the known-limits checks are missing from GetMultiXactIdMembers in
this source: resolving an id that precedes the recorded oldest multixact
id, or an id at or beyond nextMXact, raises no error at all; the code
falls through to the SLRU lookups and, finding the zero sentinel in the
next offset entry, takes the sleep-and-retry path forever (the embedding
has no error outcome because the code has none; the comment block above
the lookup still documents both errors). -/
theorem resolve_out_of_range_no_error :
    (GetMultiXactIdMembers outOfRangeState 5 false false).1 = GetMembersResult.retry ∧
    (GetMultiXactIdMembers outOfRangeState 25 false false).1 = GetMembersResult.retry := by
  constructor <;> rfl

/-- State with the members allocator at offset 0, the initial value of
the zero-filled shared state at bootstrap. -/
def zeroOffsetState : MXState := { initState with nextOffset := 0 }

/-- C8: GetNewMultiXactId does not skip offset 0: with nextOffset = 0 it
reserves starting offset 0, and a full MultiXactIdCreateFromMembers call
completes, emits its create WAL record carrying offset 0, and leaves 0 as
the final recorded starting offset of the new multixact in the offsets
log, contradicting the comment above the reservation (be careful not to
return zero as the starting offset) and the Assert(offset != 0) a reader
of that entry then trips in GetMultiXactIdMembers. -/
theorem allocator_records_zero_offset :
    (GetNewMultiXactId zeroOffsetState 1).2.1 = 0 ∧
    MultiXactIdCreateFromMembers zeroOffsetState [⟨10, MultiXactStatusForShare⟩] =
      Except.ok (1, createdState zeroOffsetState [⟨10, MultiXactStatusForShare⟩]) ∧
    (createdState zeroOffsetState [⟨10, MultiXactStatusForShare⟩]).offsetsLog 1 = 0 ∧
    (createdState zeroOffsetState [⟨10, MultiXactStatusForShare⟩]).records =
      [WalRec.zeroOffPage 0, WalRec.zeroMemPage 0,
       WalRec.createId 1 0 [⟨10, MultiXactStatusForShare⟩]] :=
  ⟨rfl, rfl, rfl, rfl⟩

/-- C9 counterexample: the member group layout of this source is not the
one-flag-byte-plus-4-byte-xid layout of a 32-bit-xid build (that would
make a group 8 + 8 * 4 = 40 bytes, not the 72 bytes this file lays out),
and the multixact id counter passes 2^32 without wrapping: advancing the
allocator from id 2^32 - 1 yields 2^32, so the identifiers are not 32-bit
counters wrapping modulo 2^32. -/
theorem membergroup_not_32bit_layout :
    MULTIXACT_MEMBERGROUP_SIZE ≠
      MULTIXACT_FLAGBYTES_PER_GROUP + MULTIXACT_MEMBERS_PER_MEMBERGROUP * 4 ∧
    (GetNewMultiXactId { initState with nextMXact := 2 ^ 32 - 1 } 1).2.2.nextMXact =
      2 ^ 32 := by
  exact ⟨by decide, rfl⟩

/-- C9 amended: transaction identifiers in this fork are 64-bit counters
wrapping modulo 2^64, and each member log entry occupies one byte of flag
bits (8 bits per xact) plus an 8-byte xid, packed in fixed groups of 8
entries sharing one 8-byte block of status bits: a complete group is 72
bytes, 113 groups fit on an 8kB page wasting 56 bytes, exactly as the
layout comment in the source describes. -/
theorem membergroup_layout_64bit :
    sizeofTransactionId = 8 ∧
    MULTIXACT_MEMBERGROUP_SIZE =
      MULTIXACT_FLAGBYTES_PER_GROUP +
        MULTIXACT_MEMBERS_PER_MEMBERGROUP * sizeofTransactionId ∧
    MULTIXACT_MEMBERGROUP_SIZE = 72 ∧
    MULTIXACT_MEMBERS_PER_MEMBERGROUP = 8 ∧
    MULTIXACT_FLAGBYTES_PER_GROUP * 8 =
      MULTIXACT_MEMBERS_PER_MEMBERGROUP * MXACT_MEMBER_BITS_PER_XACT ∧
    MULTIXACT_MEMBERGROUPS_PER_PAGE = 113 ∧
    MULTIXACT_MEMBERS_PER_PAGE = 904 ∧
    BLCKSZ - MULTIXACT_MEMBERGROUPS_PER_PAGE * MULTIXACT_MEMBERGROUP_SIZE = 56 ∧
    xidMod = 2 ^ 64 := by decide

/-- Concrete two-member array used by witnesses. -/
def sampleMembers : List MultiXactMember :=
  [⟨10, MultiXactStatusForShare⟩, ⟨11, MultiXactStatusForShare⟩]

/-- Witness for C1 at the fresh state and a concrete two-member array. -/
theorem create_then_resolve_same_set_witness :
    MultiXactIdCreateFromMembers initState sampleMembers =
      Except.ok (createdId initState sampleMembers, createdState initState sampleMembers) ∧
    resolveResult (createdState initState sampleMembers)
      (createdId initState sampleMembers) =
      GetMembersResult.found (sortMembers sampleMembers) ∧
    resolveResult (AtEOXact_MultiXact (createdState initState sampleMembers))
      (createdId initState sampleMembers) =
      GetMembersResult.found (sortMembers sampleMembers) ∧
    (sortMembers sampleMembers).Perm sampleMembers :=
  create_then_resolve_same_set initState sampleMembers (by decide) (by decide) (by decide)
    rfl (by decide) (by decide)

/-- Witness for C3: a second creation from the same two members in
reversed order returns the id of the first and the unchanged state. -/
theorem createFromMembers_idempotent_witness :
    MultiXactIdCreateFromMembers (createdState initState sampleMembers)
        [⟨11, MultiXactStatusForShare⟩, ⟨10, MultiXactStatusForShare⟩] =
      Except.ok (createdId initState sampleMembers, createdState initState sampleMembers) :=
  createFromMembers_idempotent initState sampleMembers
    [⟨11, MultiXactStatusForShare⟩, ⟨10, MultiXactStatusForShare⟩]
    (createdId initState sampleMembers) (createdState initState sampleMembers)
    rfl (by decide) rfl

/-- State whose cache resolves multixact 5 to the single member (10,
for-share). -/
def cachedPairState : MXState :=
  { initState with cache := [⟨5, [⟨10, MultiXactStatusForShare⟩]⟩], cacheMembers := 1 }

/-- Witness for C4 at a concrete cached multixact and member. -/
theorem expand_existing_member_idempotent_witness :
    MultiXactIdExpand (fun _ => false) (fun _ => false) cachedPairState 5 10
        MultiXactStatusForShare =
      (ExpandResult.ok 5, resolveState cachedPairState 5) ∧
    (resolveState cachedPairState 5).nextMXact = cachedPairState.nextMXact ∧
    (resolveState cachedPairState 5).nextOffset = cachedPairState.nextOffset ∧
    (resolveState cachedPairState 5).records = cachedPairState.records :=
  expand_existing_member_idempotent (fun _ => false) (fun _ => false) cachedPairState 5 10
    MultiXactStatusForShare [⟨10, MultiXactStatusForShare⟩] rfl (by decide)

/-- Witness for C5 at a concrete state where resolution yields no
members. -/
theorem expand_no_members_creates_singleton_witness :
    MultiXactIdExpand (fun _ => false) (fun _ => false) initState 0 10
        MultiXactStatusForShare =
      (ExpandResult.ok (allocMulti (resolveState initState 0)),
       createdState (resolveState initState 0) [⟨10, MultiXactStatusForShare⟩]) ∧
    resolveResult
      (createdState (resolveState initState 0) [⟨10, MultiXactStatusForShare⟩])
      (allocMulti (resolveState initState 0)) =
      GetMembersResult.found [⟨10, MultiXactStatusForShare⟩] :=
  expand_no_members_creates_singleton (fun _ => false) (fun _ => false) initState 0 10
    MultiXactStatusForShare rfl (by decide) (by decide) (by decide) rfl (by decide)

/-- State whose cache resolves multixact 7 to the single member (10,
for-share), with the allocator at id 8 and offset 5. -/
def expandState : MXState :=
  { initState with
    cache := [⟨7, [⟨10, MultiXactStatusForShare⟩]⟩]
    cacheMembers := 1
    nextMXact := 8
    nextOffset := 5 }

/-- Witness for C6 at a concrete state with one dead read-only member. -/
theorem expand_filters_dead_members_witness :
    expandNewMembers (fun _ => false) (fun _ => false) [⟨10, MultiXactStatusForShare⟩] 11
        MultiXactStatusForShare =
      ([⟨10, MultiXactStatusForShare⟩].filter
        (expandKeep (fun _ => false) (fun _ => false))) ++
        [⟨11, MultiXactStatusForShare⟩] ∧
    MultiXactIdExpand (fun _ => false) (fun _ => false) expandState 7 11
        MultiXactStatusForShare =
      expandResultOfCreate
        (MultiXactIdCreateFromMembers (resolveState expandState 7)
          (([⟨10, MultiXactStatusForShare⟩].filter
            (expandKeep (fun _ => false) (fun _ => false))) ++
            [⟨11, MultiXactStatusForShare⟩]))
        (resolveState expandState 7) :=
  expand_filters_dead_members (fun _ => false) (fun _ => false) expandState 7 11
    MultiXactStatusForShare [⟨10, MultiXactStatusForShare⟩] rfl (by decide)

/-- Witness for C7 at the fresh state and a two-call sequence reserving 2
then 1 member. -/
theorem getNewMultiXactId_strictly_increasing_witness :
    List.Chain' (fun a b => a < b) ((allocSequence initState [2, 1]).1.map Prod.fst) ∧
    List.Chain' (fun a b => a < b) ((allocSequence initState [2, 1]).1.map Prod.snd) :=
  getNewMultiXactId_strictly_increasing initState [2, 1] (by decide) (by decide)
    (by decide) (by decide)

/-- Truncation environment with no physically existing pages. -/
def truncEnv : TruncateEnv := ⟨none, fun _ => false⟩

/-- State whose recorded oldest multixact id is 5. -/
def floorState : MXState := { initState with oldestMultiXactId := 5 }

/-- Witness for C10: truncating to floor 3 when the recorded floor is
already 5 changes nothing. -/
theorem truncate_noop_when_floor_not_advanced_witness :
    TruncateMultiXact truncEnv floorState 3 0 = ⟨floorState, false, [], none⟩ :=
  truncate_noop_when_floor_not_advanced truncEnv floorState 3 0 (by decide)
